import Mathlib

/-! # Course recommendation scorer (`server.js`)

A shallow embedding of the two scorers of `server.js`:

* `generate_recommendation`, the Python function embedded in `runPython`
  (the primary scorer), and
* `generateIntelligentFallback`, the JavaScript fallback scorer,

together with the `/api/recommend` handler that chooses between them.

Python and JavaScript floats are modelled by exact rationals (`ℚ`); the
random draws of the fallback and the clock are explicit arguments. The
ordering of the fallback's jittered scores depends on the rounding of each
operation, so the fallback scorer also has a double-precision model (`fl`,
`jitterFreeScores64`, `sortedEntries64`).
-/

namespace CourseRec

/-! ## Data model -/

/-- The five fixed courses, in the insertion order of the `courses` dict. -/
inductive Course where
  | Gaming
  | WebDevelopment
  | FuzzyLogic
  | DatabaseDesign
  | SoftwareValidation
  deriving DecidableEq, Repr

/-- The dict key (course name) of each course. -/
def Course.name : Course → String
  | .Gaming => "Gaming"
  | .WebDevelopment => "Web Development"
  | .FuzzyLogic => "Fuzzy Logic"
  | .DatabaseDesign => "Database Design"
  | .SoftwareValidation => "Software Validation & Verification"

/-- The list `course_names` of `generate_recommendation` (line 165). -/
def course_names : List Course :=
  [.Gaming, .WebDevelopment, .FuzzyLogic, .DatabaseDesign, .SoftwareValidation]

/-- One field of the JSON input record: absent, a JSON number, or a value on
which Python's `float()` / `int()` raise and JavaScript's `parseFloat` /
`parseInt` give `NaN` (`null`, a non-numeric string). -/
inductive Field where
  | missing
  | num (q : ℚ)
  | invalid
  deriving DecidableEq, Repr

/-- The JSON input record (`req.body` / `data`). -/
structure Record where
  cgpa : Field
  programming : Field
  multimedia : Field
  machineLearning : Field
  database : Field
  softwareEngineering : Field
  gameDevelopment : Field
  webDevelopment : Field
  artificialIntelligence : Field
  databaseSystem : Field
  softwareValidation : Field
  difficulty : Field
  learningStyle : Field
  deriving DecidableEq, Repr

/-- The empty record: every field missing. -/
def Record.empty : Record :=
  ⟨.missing, .missing, .missing, .missing, .missing, .missing, .missing,
   .missing, .missing, .missing, .missing, .missing, .missing⟩

/-- The score table: the dict `courses` (Python) / the object `scores`
(JavaScript), one score per course, keys in the fixed insertion order. -/
structure Courses where
  gaming : ℚ
  web : ℚ
  fuzzy : ℚ
  db : ℚ
  valid : ℚ
  deriving DecidableEq, Repr

/-- Lookup `courses[c]`. -/
def Courses.get (t : Courses) : Course → ℚ
  | .Gaming => t.gaming
  | .WebDevelopment => t.web
  | .FuzzyLogic => t.fuzzy
  | .DatabaseDesign => t.db
  | .SoftwareValidation => t.valid

/-- Update `courses[c] = f(courses[c])`. -/
def Courses.modify (t : Courses) (c : Course) (f : ℚ → ℚ) : Courses :=
  match c with
  | .Gaming => { t with gaming := f t.gaming }
  | .WebDevelopment => { t with web := f t.web }
  | .FuzzyLogic => { t with fuzzy := f t.fuzzy }
  | .DatabaseDesign => { t with db := f t.db }
  | .SoftwareValidation => { t with valid := f t.valid }

/-- The loop `for course in courses: courses[course] = f course courses[course]`. -/
def Courses.forEach (t : Courses) (f : Course → ℚ → ℚ) : Courses :=
  ⟨f .Gaming t.gaming, f .WebDevelopment t.web, f .FuzzyLogic t.fuzzy,
   f .DatabaseDesign t.db, f .SoftwareValidation t.valid⟩

/-- The entries `courses.items()` / `Object.entries(scores)`, in insertion order. -/
def Courses.items (t : Courses) : List (Course × ℚ) :=
  [(.Gaming, t.gaming), (.WebDevelopment, t.web), (.FuzzyLogic, t.fuzzy),
   (.DatabaseDesign, t.db), (.SoftwareValidation, t.valid)]

/-! ## Library functions of Python and JavaScript -/

/-- Python `int(x)` on a number: truncation toward zero. -/
def pyInt (q : ℚ) : ℤ := if 0 ≤ q then ⌊q⌋ else -⌊-q⌋

/-- Python `round(x)`: the nearest integer, a tie going to the even one. -/
def pyRound (x : ℚ) : ℤ :=
  if x - ⌊x⌋ < 1 / 2 then ⌊x⌋
  else if 1 / 2 < x - ⌊x⌋ then ⌊x⌋ + 1
  else if ⌊x⌋ % 2 = 0 then ⌊x⌋ else ⌊x⌋ + 1

/-- Python `round(x, 3)`: `x` rounded to three decimals. -/
def pyRound3 (x : ℚ) : ℚ := (pyRound (x * 1000) : ℚ) / 1000

/-- A stable sort by descending score: Python `sorted(items, key=score,
reverse=True)` and JavaScript `entries.sort(([,a],[,b]) => b - a)`. Both are
stable; an entry is placed before the first later entry whose score it reaches. -/
def sortDesc (l : List (Course × ℚ)) : List (Course × ℚ) :=
  l.insertionSort (fun a b => b.2 ≤ a.2)

/-- Python list indexing `l[i]`: indices `-len .. len-1`, else `IndexError`. -/
def pyIndex {α : Type} (l : List α) (i : ℤ) : Option α :=
  if 0 ≤ i then l.get? i.toNat
  else if -(l.length : ℤ) ≤ i then l.get? (i + l.length).toNat
  else none

/-! ## The primary scorer: `generate_recommendation` (lines 61-222) -/

/-- Exceptions `generate_recommendation` can raise: a failed `float()` /
`int()` conversion (`TypeError`, `ValueError`) or a failed list index. -/
inductive PyError where
  | conversion
  | index
  deriving DecidableEq, Repr

/-- The expression `float(data.get(key, dflt))`. -/
def pyFloatGet (f : Field) (dflt : ℚ) : Except PyError ℚ :=
  match f with
  | .missing => .ok dflt
  | .num q => .ok q
  | .invalid => .error .conversion

/-- The expression `int(data.get(key, dflt))`. -/
def pyIntGet (f : Field) (dflt : ℤ) : Except PyError ℤ :=
  match f with
  | .missing => .ok dflt
  | .num q => .ok (pyInt q)
  | .invalid => .error .conversion

/-- The local variables bound by the input extraction (lines 65-77). -/
structure Input where
  cgpa : ℚ
  programming : ℤ
  multimedia : ℤ
  machine_learning : ℤ
  database : ℤ
  software_eng : ℤ
  game_dev : ℤ
  web_dev : ℤ
  ai_interest : ℤ
  db_interest : ℤ
  software_validation : ℤ
  difficulty : ℤ
  learning_style : ℤ
  deriving DecidableEq, Repr

/-- Input extraction (lines 65-77), in source order. -/
def extract (data : Record) : Except PyError Input := do
  let cgpa ← pyFloatGet data.cgpa 3
  let programming ← pyIntGet data.programming 0
  let multimedia ← pyIntGet data.multimedia 0
  let machine_learning ← pyIntGet data.machineLearning 0
  let database ← pyIntGet data.database 0
  let software_eng ← pyIntGet data.softwareEngineering 0
  let game_dev ← pyIntGet data.gameDevelopment 1
  let web_dev ← pyIntGet data.webDevelopment 1
  let ai_interest ← pyIntGet data.artificialIntelligence 1
  let db_interest ← pyIntGet data.databaseSystem 1
  let software_validation ← pyIntGet data.softwareValidation 1
  let difficulty ← pyIntGet data.difficulty 2
  let learning_style ← pyIntGet data.learningStyle 1
  return ⟨cgpa, programming, multimedia, machine_learning, database, software_eng,
    game_dev, web_dev, ai_interest, db_interest, software_validation, difficulty,
    learning_style⟩

/-- The initial table (lines 80-86): every score `0.0`. -/
def initCourses : Courses := ⟨0, 0, 0, 0, 0⟩

/-- Subject-based scoring (lines 89-113). -/
def subjectScoring (i : Input) (c : Courses) : Courses :=
  let c := if i.programming > 0 then
      let prog_score : ℚ := (i.programming : ℚ) / 5.0
      { gaming := c.gaming + prog_score * 0.7
        web := c.web + prog_score * 1.0
        fuzzy := c.fuzzy + prog_score * 0.6
        db := c.db + prog_score * 0.8
        valid := c.valid + prog_score * 0.9 }
    else c
  let c := if i.multimedia > 0 then
      let mm_score : ℚ := (i.multimedia : ℚ) / 5.0
      { c with gaming := c.gaming + mm_score * 1.0, web := c.web + mm_score * 0.8 }
    else c
  let c := if i.machine_learning > 0 then
      let ml_score : ℚ := (i.machine_learning : ℚ) / 5.0
      { c with fuzzy := c.fuzzy + ml_score * 1.0 }
    else c
  let c := if i.database > 0 then
      let db_score : ℚ := (i.database : ℚ) / 5.0
      { c with db := c.db + db_score * 1.0 }
    else c
  let c := if i.software_eng > 0 then
      let se_score : ℚ := (i.software_eng : ℚ) / 5.0
      { c with web := c.web + se_score * 0.8, valid := c.valid + se_score * 1.0 }
    else c
  c

/-- The dict `interest_scores` (lines 116-122). -/
def interest_scores (i : Input) : Course → ℚ
  | .Gaming => (i.game_dev : ℚ) / 5.0
  | .WebDevelopment => (i.web_dev : ℚ) / 5.0
  | .FuzzyLogic => (i.ai_interest : ℚ) / 5.0
  | .DatabaseDesign => (i.db_interest : ℚ) / 5.0
  | .SoftwareValidation => (i.software_validation : ℚ) / 5.0

/-- Interest-based scoring (lines 124-125). -/
def interestScoring (i : Input) (c : Courses) : Courses :=
  c.forEach (fun course s => s + interest_scores i course)

/-- The CGPA factor (line 128). -/
def cgpa_factor (i : Input) : ℚ := min (i.cgpa / 4.0) 1.25

/-- The CGPA step (lines 129-130). -/
def cgpaBoost (i : Input) (c : Courses) : Courses :=
  c.forEach (fun _ s => s * cgpa_factor i)

/-- The rule cascade computing `fis_output` (lines 133-161). -/
def fis_output (i : Input) : ℚ :=
  if i.cgpa ≥ 4 ∧ i.programming ≥ 4 then
    if i.game_dev ≥ 3 then 1.0
    else if i.web_dev ≥ 3 then 2.0
    else if i.ai_interest ≥ 3 then 3.0
    else if i.db_interest ≥ 3 then 4.0
    else 5.0
  else if i.cgpa ≥ 3 then
    if i.ai_interest ≥ 3 ∧ i.difficulty = 3 then 3.0
    else if i.db_interest ≥ 3 then 4.0
    else if i.web_dev ≥ 3 then 2.0
    else 2.5
  else
    if i.web_dev ≥ 3 then 2.0
    else 4.0

/-- The rounded rule class (line 164). -/
def course_recommend (i : Input) : ℤ := pyRound (fis_output i)

/-- Python list indexing that raises `IndexError`. -/
def pyIndexE {α : Type} (l : List α) (i : ℤ) : Except PyError α :=
  match pyIndex l i with
  | some a => .ok a
  | none => .error .index

/-- The FIS boost (lines 167-170). The test `boost_course in courses` always
holds: the keys of `courses` are the five courses of `course_names`. -/
def fisBoost (i : Input) (c : Courses) : Except PyError Courses :=
  if course_recommend i ≥ 1 ∧ course_recommend i ≤ 5 then do
    let boost_course ← pyIndexE course_names (course_recommend i - 1)
    return c.modify boost_course (fun s => s + 0.3)
  else return c

/-- Difficulty preferences (lines 173-180). -/
def difficultyStep (difficulty : ℤ) (c : Courses) : Courses :=
  if difficulty = 1 then { c with web := c.web * 1.2, db := c.db * 1.2 }
  else if difficulty = 2 then { c with gaming := c.gaming * 1.1, valid := c.valid * 1.1 }
  else if difficulty = 3 then { c with fuzzy := c.fuzzy * 1.2 }
  else c

/-- Learning style preferences (lines 183-196). -/
def learningStyleStep (learning_style : ℤ) (c : Courses) : Courses :=
  if learning_style = 1 then
    { c with gaming := c.gaming * 1.1, fuzzy := c.fuzzy * 1.1, db := c.db * 1.1 }
  else if learning_style = 2 then
    { c with gaming := c.gaming * 1.15, web := c.web * 1.15, db := c.db * 1.15 }
  else if learning_style = 3 then
    { c with web := c.web * 1.1, valid := c.valid * 1.1 }
  else if learning_style = 4 then
    { c with fuzzy := c.fuzzy * 1.05, valid := c.valid * 1.05 }
  else c

/-- The floor (lines 199-200). -/
def floorStep (c : Courses) : Courses := c.forEach (fun _ s => max s 0.1)

/-- The table before the FIS boost (lines 80-130). -/
def preBoostCourses (i : Input) : Courses :=
  cgpaBoost i (interestScoring i (subjectScoring i initCourses))

/-- The final table `courses` (lines 80-200). -/
def finalCourses (i : Input) : Except PyError Courses := do
  let c ← fisBoost i (preBoostCourses i)
  return floorStep (learningStyleStep i.learning_style (difficultyStep i.difficulty c))

/-- The list `sorted_courses` (line 203). -/
def sorted_courses (c : Courses) : List (Course × ℚ) := sortDesc c.items

/-- The output record (lines 205-222). -/
structure Output where
  firstRecommendedCourse : String
  alternativeRecommendedCourse : String
  firstConfidence : ℚ
  secondConfidence : ℚ
  Confidence_Expert : ℚ
  Confidence_Tree : ℚ
  probability_Gaming : ℚ
  probability_WebDevelopment : ℚ
  probability_FuzzyLogic : ℚ
  probability_DatabaseDesign : ℚ
  probability_SoftwareValidation_Verification : ℚ
  expertRecommendation : String
  treeRecommendation : String
  finalRecommendation : String
  fisOutput : ℚ
  timestamp : String
  deriving DecidableEq, Repr

/-- The body of `generate_recommendation` after input extraction
(lines 80-222); `now` is the formatted clock reading. -/
def scoreInput (i : Input) (now : String) : Except PyError Output := do
  let courses ← finalCourses i
  match sorted_courses courses with
  | first :: second :: _ =>
    let tree ← pyIndexE course_names (course_recommend i - 1)
    return {
      firstRecommendedCourse := first.1.name
      alternativeRecommendedCourse := second.1.name
      firstConfidence := pyRound3 first.2
      secondConfidence := pyRound3 second.2
      Confidence_Expert := pyRound3 first.2
      Confidence_Tree := pyRound3 (courses.get tree)
      probability_Gaming := pyRound3 (courses.get .Gaming)
      probability_WebDevelopment := pyRound3 (courses.get .WebDevelopment)
      probability_FuzzyLogic := pyRound3 (courses.get .FuzzyLogic)
      probability_DatabaseDesign := pyRound3 (courses.get .DatabaseDesign)
      probability_SoftwareValidation_Verification := pyRound3 (courses.get .SoftwareValidation)
      expertRecommendation := first.1.name
      treeRecommendation := tree.name
      finalRecommendation := first.1.name
      fisOutput := pyRound3 (fis_output i)
      timestamp := now }
  | _ => .error .index

/-- The primary scorer `generate_recommendation(data)` (lines 61-222). -/
def generate_recommendation (data : Record) (now : String) : Except PyError Output := do
  let i ← extract data
  scoreInput i now

/-! ## The fallback scorer: `generateIntelligentFallback` (lines 286-365) -/

/-- JavaScript `parseFloat(v)` on a field; `none` is `NaN`. -/
def jsParseFloat : Field → Option ℚ
  | .num q => some q
  | _ => none

/-- JavaScript `parseInt(v)` on a field; `none` is `NaN`. A number is read
from its decimal string, which for magnitudes from `1e-6` up to `1e21` (and
for `0`) is its integer part. Outside that range the string is in exponent
form and `parseInt` reads only its leading digit; this definition covers the
range of positional strings. -/
def jsParseInt : Field → Option ℚ
  | .num q => some (pyInt q)
  | _ => none

/-- JavaScript `x || d` on a number: `NaN` and `0` are falsy. -/
def jsOr (x : Option ℚ) (d : ℚ) : ℚ :=
  match x with
  | some q => if q = 0 then d else q
  | none => d

/-- JavaScript `Math.round(x * 100) / 100`; `Math.round` sends a tie upward. -/
def jsRound2 (x : ℚ) : ℚ := (⌊x * 100 + 1 / 2⌋ : ℚ) / 100

/-- The constants bound by lines 287-297. -/
structure FallbackInput where
  cgpa : ℚ
  programming : ℚ
  gaming : ℚ
  web : ℚ
  ai : ℚ
  database : ℚ
  testing : ℚ
  difficulty : ℚ
  learningStyle : ℚ
  deriving DecidableEq, Repr

/-- Coercion of the request body (lines 287-297). -/
def fallbackParse (inputData : Record) : FallbackInput :=
  { cgpa := jsOr (jsParseFloat inputData.cgpa) 3
    programming := jsOr (jsParseInt inputData.programming) 0
    gaming := jsOr (jsParseInt inputData.gameDevelopment) 1
    web := jsOr (jsParseInt inputData.webDevelopment) 1
    ai := jsOr (jsParseInt inputData.artificialIntelligence) 1
    database := jsOr (jsParseInt inputData.databaseSystem) 1
    testing := jsOr (jsParseInt inputData.softwareValidation) 1
    difficulty := jsOr (jsParseInt inputData.difficulty) 2
    learningStyle := jsOr (jsParseInt inputData.learningStyle) 1 }

/-- The constant `baseScore` (line 300). -/
def baseScore (p : FallbackInput) : ℚ := (p.cgpa / 5.0) * 2 + (p.programming / 5.0) * 1.5

/-- The initial object `scores` (lines 302-308). -/
def initScores (p : FallbackInput) : Courses :=
  { gaming := baseScore p + (p.gaming / 5.0) * 2
    web := baseScore p + (p.web / 5.0) * 2
    fuzzy := baseScore p + (p.ai / 5.0) * 2
    db := baseScore p + (p.database / 5.0) * 2
    valid := baseScore p + (p.testing / 5.0) * 2 }

/-- Difficulty adjustments (lines 311-319). -/
def fallbackDifficulty (difficulty : ℚ) (scores : Courses) : Courses :=
  if difficulty = 1 then { scores with web := scores.web * 1.2, db := scores.db * 1.2 }
  else if difficulty = 2 then
    { scores with gaming := scores.gaming * 1.1, valid := scores.valid * 1.1 }
  else if difficulty = 3 then { scores with fuzzy := scores.fuzzy * 1.2 }
  else scores

/-- Learning style adjustments (lines 322-336). -/
def fallbackLearningStyle (learningStyle : ℚ) (scores : Courses) : Courses :=
  if learningStyle = 1 then
    { scores with gaming := scores.gaming * 1.1, fuzzy := scores.fuzzy * 1.1,
                  db := scores.db * 1.1 }
  else if learningStyle = 2 then
    { scores with gaming := scores.gaming * 1.15, web := scores.web * 1.15,
                  db := scores.db * 1.15 }
  else if learningStyle = 3 then
    { scores with web := scores.web * 1.1, valid := scores.valid * 1.1 }
  else if learningStyle = 4 then
    { scores with fuzzy := scores.fuzzy * 1.05, valid := scores.valid * 1.05 }
  else scores

/-- The scores before the random factor (lines 300-336). -/
def jitterFreeScores (inputData : Record) : Courses :=
  let p := fallbackParse inputData
  fallbackLearningStyle p.learningStyle (fallbackDifficulty p.difficulty (initScores p))

/-- The random factor (lines 339-341); `rnd c` is the value `Math.random()`
returns in the iteration for course `c`. -/
def addJitter (rnd : Course → ℚ) (scores : Courses) : Courses :=
  scores.forEach (fun c s => s + rnd c * 0.1)

/-- The final object `scores` (lines 300-341). -/
def fallbackScores (inputData : Record) (rnd : Course → ℚ) : Courses :=
  addJitter rnd (jitterFreeScores inputData)

/-- The array `sortedEntries` (line 343). -/
def sortedEntries (inputData : Record) (rnd : Course → ℚ) : List (Course × ℚ) :=
  sortDesc (fallbackScores inputData rnd).items

/-- The record returned by the fallback scorer (lines 345-364). -/
structure FallbackOutput where
  firstRecommendedCourse : String
  alternativeRecommendedCourse : String
  firstConfidence : ℚ
  secondConfidence : ℚ
  Confidence_Expert : ℚ
  Confidence_Tree : ℚ
  probability_Gaming : ℚ
  probability_WebDevelopment : ℚ
  probability_FuzzyLogic : ℚ
  probability_DatabaseDesign : ℚ
  probability_SoftwareValidation_Verification : ℚ
  expertRecommendation : String
  treeRecommendation : String
  finalRecommendation : String
  fisOutput : ℚ
  method : String
  note : String
  timestamp : String
  deriving DecidableEq, Repr

/-- The fallback scorer `generateIntelligentFallback(inputData)`
(lines 286-365); `none` stands for a thrown `TypeError` (reading an entry of
`sortedEntries` that does not exist). -/
def generateIntelligentFallback (inputData : Record) (rnd : Course → ℚ) (now : String) :
    Option FallbackOutput :=
  let scores := fallbackScores inputData rnd
  match sortedEntries inputData rnd with
  | first :: second :: _ =>
    some {
      firstRecommendedCourse := first.1.name
      alternativeRecommendedCourse := second.1.name
      firstConfidence := jsRound2 first.2
      secondConfidence := jsRound2 second.2
      Confidence_Expert := jsRound2 first.2
      Confidence_Tree := jsRound2 first.2
      probability_Gaming := jsRound2 scores.gaming
      probability_WebDevelopment := jsRound2 scores.web
      probability_FuzzyLogic := jsRound2 scores.fuzzy
      probability_DatabaseDesign := jsRound2 scores.db
      probability_SoftwareValidation_Verification := jsRound2 scores.valid
      expertRecommendation := first.1.name
      treeRecommendation := first.1.name
      finalRecommendation := first.1.name
      fisOutput := jsRound2 ((first.2 + second.2) / 2)
      method := "Intelligent Fallback Algorithm"
      note := "Generated using backup system for reliability"
      timestamp := now }
  | _ => none

/-! ## `runPython` and the `/api/recommend` handler (lines 27-46, 49-283) -/

/-- What `JSON.parse` makes of the last line the script prints: an output
record, or the record `\x7b'error': str(e)\x7d` of the script's `except` clause. -/
inductive PyResult where
  | record (out : Output)
  | errorRecord (error : String)
  deriving DecidableEq, Repr

/-- The value of `result.error`; `none` is `undefined` (no such key). -/
def PyResult.error : PyResult → Option String
  | .record _ => none
  | .errorRecord error => some error

/-- How the spawned Python process ends: the `error` event (spawn failure), or
the `close` event with its exit code, the text of stderr, and the parse of the
last stdout line (`none` when `JSON.parse` throws). -/
inductive ProcessOutcome where
  | spawnError (message : String)
  | close (code : ℤ) (errorOutput : String) (parsed : Option PyResult)
  deriving DecidableEq, Repr

/-- The outcomes the embedded script can produce: the `error` value of an error
record is `str(e)` of the exception caught at line 239, and every exception
the statements of the script raise carries a message, so the value is not the
empty string. -/
def ProcessOutcome.errorHasText : ProcessOutcome → Bool
  | .close _ _ (some (.errorRecord error)) => decide (error ≠ "")
  | _ => true

/-- The promise returned by `runPython` (lines 259-281): resolved with a result
or rejected with an error message. -/
def runPython (o : ProcessOutcome) : Except String PyResult :=
  match o with
  | .close code errorOutput parsed =>
    if code = 0 then
      match parsed with
      | some result =>
        -- `if (result.error)`: `undefined` and the empty string are falsy
        match result.error with
        | some error => if error ≠ "" then .error error else .ok result
        | none => .ok result
      | none => .error "Failed to parse Python output"
    else .error ("Python script failed with code " ++ toString code ++ ": " ++ errorOutput)
  | .spawnError message => .error ("Python execution failed: " ++ message)

/-- The `data` member of the response. -/
inductive ResponseData where
  | primary (result : PyResult)
  | fallback (result : FallbackOutput)
  deriving DecidableEq, Repr

/-- The JSON body sent by `res.json`. -/
structure Response where
  success : Bool
  data : ResponseData
  deriving DecidableEq, Repr

/-- The handler of `POST /api/recommend` (lines 27-46); `none` means that no
response is sent (the `catch` block itself threw). -/
def recommendHandler (body : Record) (o : ProcessOutcome) (rnd : Course → ℚ)
    (now : String) : Option Response :=
  match runPython o with
  | .ok result => some { success := true, data := .primary result }
  | .error _ =>
    match generateIntelligentFallback body rnd now with
    | some fallback => some { success := true, data := .fallback fallback }
    | none => none

/-! ## Double-precision model of the fallback scorer

JavaScript numbers are IEEE 754 binary64 values and every arithmetic operation
rounds its exact result to the nearest one. The definitions below repeat
lines 287-343 with that rounding made explicit; literals that are not binary
fractions (`1.2`, `1.1`, `1.15`, `1.05`, `0.1`) stand for their nearest double. -/

/-- Rounding to the nearest integer, a tie going to the even one. -/
def roundHalfEven (x : ℚ) : ℤ := pyRound x

/-- Rounding to the nearest binary64 number, ties to even (53-bit significand;
magnitudes in the normal range, so neither overflow nor subnormals occur). -/
def fl (x : ℚ) : ℚ :=
  if x = 0 then 0
  else (roundHalfEven (x / (2 : ℚ) ^ (Int.log 2 |x| - 52)) : ℚ) * (2 : ℚ) ^ (Int.log 2 |x| - 52)

/-- JavaScript `parseFloat(v)` on a field whose number is held as a double. -/
def jsParseFloat64 : Field → Option ℚ
  | .num q => some (fl q)
  | _ => none

/-- JavaScript `parseInt(v)` on a field whose number is held as a double (the
integer part, for magnitudes from `1e-6` up to `1e21` and for `0`). -/
def jsParseInt64 : Field → Option ℚ
  | .num q => some (fl (pyInt (fl q)))
  | _ => none

/-- Coercion of the request body (lines 287-297) in doubles. -/
def fallbackParse64 (inputData : Record) : FallbackInput :=
  { cgpa := jsOr (jsParseFloat64 inputData.cgpa) 3
    programming := jsOr (jsParseInt64 inputData.programming) 0
    gaming := jsOr (jsParseInt64 inputData.gameDevelopment) 1
    web := jsOr (jsParseInt64 inputData.webDevelopment) 1
    ai := jsOr (jsParseInt64 inputData.artificialIntelligence) 1
    database := jsOr (jsParseInt64 inputData.databaseSystem) 1
    testing := jsOr (jsParseInt64 inputData.softwareValidation) 1
    difficulty := jsOr (jsParseInt64 inputData.difficulty) 2
    learningStyle := jsOr (jsParseInt64 inputData.learningStyle) 1 }

/-- The constant `baseScore` (line 300) in doubles. -/
def baseScore64 (p : FallbackInput) : ℚ :=
  fl (fl (fl (p.cgpa / 5.0) * 2) + fl (fl (p.programming / 5.0) * 1.5))

/-- The initial object `scores` (lines 302-308) in doubles. -/
def initScores64 (p : FallbackInput) : Courses :=
  { gaming := fl (baseScore64 p + fl (fl (p.gaming / 5.0) * 2))
    web := fl (baseScore64 p + fl (fl (p.web / 5.0) * 2))
    fuzzy := fl (baseScore64 p + fl (fl (p.ai / 5.0) * 2))
    db := fl (baseScore64 p + fl (fl (p.database / 5.0) * 2))
    valid := fl (baseScore64 p + fl (fl (p.testing / 5.0) * 2)) }

/-- Difficulty adjustments (lines 311-319) in doubles. -/
def fallbackDifficulty64 (difficulty : ℚ) (scores : Courses) : Courses :=
  if difficulty = 1 then
    { scores with web := fl (scores.web * fl 1.2), db := fl (scores.db * fl 1.2) }
  else if difficulty = 2 then
    { scores with gaming := fl (scores.gaming * fl 1.1), valid := fl (scores.valid * fl 1.1) }
  else if difficulty = 3 then { scores with fuzzy := fl (scores.fuzzy * fl 1.2) }
  else scores

/-- Learning style adjustments (lines 322-336) in doubles. -/
def fallbackLearningStyle64 (learningStyle : ℚ) (scores : Courses) : Courses :=
  if learningStyle = 1 then
    { scores with gaming := fl (scores.gaming * fl 1.1), fuzzy := fl (scores.fuzzy * fl 1.1),
                  db := fl (scores.db * fl 1.1) }
  else if learningStyle = 2 then
    { scores with gaming := fl (scores.gaming * fl 1.15), web := fl (scores.web * fl 1.15),
                  db := fl (scores.db * fl 1.15) }
  else if learningStyle = 3 then
    { scores with web := fl (scores.web * fl 1.1), valid := fl (scores.valid * fl 1.1) }
  else if learningStyle = 4 then
    { scores with fuzzy := fl (scores.fuzzy * fl 1.05), valid := fl (scores.valid * fl 1.05) }
  else scores

/-- The scores before the random factor (lines 300-336) in doubles, from the
coerced constants. -/
def jitterFree64 (p : FallbackInput) : Courses :=
  fallbackLearningStyle64 p.learningStyle (fallbackDifficulty64 p.difficulty (initScores64 p))

/-- The scores before the random factor (lines 287-336) in doubles. -/
def jitterFreeScores64 (inputData : Record) : Courses :=
  jitterFree64 (fallbackParse64 inputData)

/-- The jitter `Math.random() * 0.1` (line 340) for the draw `r`. -/
def jitter64 (r : ℚ) : ℚ := fl (r * fl 0.1)

/-- The random factor (lines 339-341) in doubles: `scores[course] += jitter`. -/
def addJitter64 (rnd : Course → ℚ) (scores : Courses) : Courses :=
  scores.forEach (fun c s => fl (s + jitter64 (rnd c)))

/-- The final object `scores` (lines 287-341) in doubles. -/
def fallbackScores64 (inputData : Record) (rnd : Course → ℚ) : Courses :=
  addJitter64 rnd (jitterFreeScores64 inputData)

/-- The array `sortedEntries` (line 343) in doubles. -/
def sortedEntries64 (inputData : Record) (rnd : Course → ℚ) : List (Course × ℚ) :=
  sortDesc (fallbackScores64 inputData rnd).items

/-- A record on which rounding produces a tie: cgpa 0.5, gameDevelopment 2,
webDevelopment 2, difficulty 3, learningStyle 3, every other field missing. -/
def tieRecord : Record :=
  { Record.empty with
    cgpa := .num 0.5, gameDevelopment := .num 2, webDevelopment := .num 2,
    difficulty := .num 3, learningStyle := .num 3 }

/-- Draws of `Math.random()`: `1 - 2^-52` in the iteration for Gaming, `0` in
the others. -/
def tieDraws : Course → ℚ
  | .Gaming => 4503599627370495 / 4503599627370496
  | _ => 0

/-! ## Auxiliary definitions used to state the properties -/

/-- A field on which `float()` / `int()` do not raise: missing or a number. -/
def Field.isValid : Field → Bool
  | .invalid => false
  | _ => true

/-- The value `data.get(key, d)` of a field that is missing or a number. -/
def Field.getD (f : Field) (d : ℚ) : ℚ :=
  match f with
  | .num q => q
  | _ => d

/-- A record none of whose fields is invalid. -/
def Record.valid (data : Record) : Bool :=
  data.cgpa.isValid && data.programming.isValid && data.multimedia.isValid &&
  data.machineLearning.isValid && data.database.isValid &&
  data.softwareEngineering.isValid && data.gameDevelopment.isValid &&
  data.webDevelopment.isValid && data.artificialIntelligence.isValid &&
  data.databaseSystem.isValid && data.softwareValidation.isValid &&
  data.difficulty.isValid && data.learningStyle.isValid

/-- The record with every field that is not a number replaced by its
documented default (cgpa 3, subject strengths 0, interests 1, difficulty 2,
learningStyle 1). -/
def Record.withDefaults (data : Record) : Record :=
  { cgpa := .num (data.cgpa.getD 3)
    programming := .num (data.programming.getD 0)
    multimedia := .num (data.multimedia.getD 0)
    machineLearning := .num (data.machineLearning.getD 0)
    database := .num (data.database.getD 0)
    softwareEngineering := .num (data.softwareEngineering.getD 0)
    gameDevelopment := .num (data.gameDevelopment.getD 1)
    webDevelopment := .num (data.webDevelopment.getD 1)
    artificialIntelligence := .num (data.artificialIntelligence.getD 1)
    databaseSystem := .num (data.databaseSystem.getD 1)
    softwareValidation := .num (data.softwareValidation.getD 1)
    difficulty := .num (data.difficulty.getD 2)
    learningStyle := .num (data.learningStyle.getD 1) }

/-- The locals that extraction binds for a record without invalid fields. -/
def Record.input (data : Record) : Input :=
  { cgpa := data.cgpa.getD 3
    programming := pyInt (data.programming.getD 0)
    multimedia := pyInt (data.multimedia.getD 0)
    machine_learning := pyInt (data.machineLearning.getD 0)
    database := pyInt (data.database.getD 0)
    software_eng := pyInt (data.softwareEngineering.getD 0)
    game_dev := pyInt (data.gameDevelopment.getD 1)
    web_dev := pyInt (data.webDevelopment.getD 1)
    ai_interest := pyInt (data.artificialIntelligence.getD 1)
    db_interest := pyInt (data.databaseSystem.getD 1)
    software_validation := pyInt (data.softwareValidation.getD 1)
    difficulty := pyInt (data.difficulty.getD 2)
    learning_style := pyInt (data.learningStyle.getD 1) }

/-- Course `a` stands before course `b` in a ranked list of entries. -/
def rankedBefore (l : List (Course × ℚ)) (a b : Course) : Prop :=
  List.Sublist [a, b] (l.map Prod.fst)

/-- The five course names. -/
def courseNameList : List String := course_names.map Course.name

/-- The boundary record: cgpa 0, the five subject strengths 0, every other field
at its default value. -/
def boundaryRecord : Record :=
  { cgpa := .num 0
    programming := .num 0
    multimedia := .num 0
    machineLearning := .num 0
    database := .num 0
    softwareEngineering := .num 0
    gameDevelopment := .num 1
    webDevelopment := .num 1
    artificialIntelligence := .num 1
    databaseSystem := .num 1
    softwareValidation := .num 1
    difficulty := .num 2
    learningStyle := .num 1 }

/-- A record whose `cgpa` is `null`; every other field is missing. -/
def nullCgpaRecord : Record := { Record.empty with cgpa := .invalid }

/-- A high-performance record: cgpa 4, programming 5, every other field missing. -/
def highPerformanceRecord : Record :=
  { Record.empty with cgpa := .num 4, programming := .num 5 }

/-- A record inside the expected ranges with zeros: cgpa 0, programming 5,
gameDevelopment 0, the other four interests 5, every other field missing. -/
def zeroCgpaRecord : Record :=
  { Record.empty with
    cgpa := .num 0, programming := .num 5, gameDevelopment := .num 0,
    webDevelopment := .num 5, artificialIntelligence := .num 5, databaseSystem := .num 5,
    softwareValidation := .num 5 }

/-- The difficulty multiplier of a course as the specification words it: Easy
(1) boosts Web Development and Database Design by 1.2, Moderate (2) boosts
Gaming and Validation by 1.1, Difficult (3) boosts Fuzzy Logic by 1.2; every
other course is multiplied by 1. -/
def specDifficultyMultiplier (difficulty : ℤ) (k : Course) : ℚ :=
  if difficulty = 1 then
    if k = .WebDevelopment ∨ k = .DatabaseDesign then 1.2 else 1
  else if difficulty = 2 then
    if k = .Gaming ∨ k = .SoftwareValidation then 1.1 else 1
  else if difficulty = 3 then
    if k = .FuzzyLogic then 1.2 else 1
  else 1

/-- The learning-style multiplier of a course as the specification words it:
Visual (1) boosts Gaming, Fuzzy Logic and Database Design by 1.1, Kinesthetic
(2) boosts Gaming, Web Development and Database Design by 1.15,
Reading/Writing (3) boosts Web Development and Validation by 1.1, Auditory (4)
boosts Fuzzy Logic and Validation by 1.05; every other course is multiplied
by 1. -/
def specLearningStyleMultiplier (learningStyle : ℤ) (k : Course) : ℚ :=
  if learningStyle = 1 then
    if k = .Gaming ∨ k = .FuzzyLogic ∨ k = .DatabaseDesign then 1.1 else 1
  else if learningStyle = 2 then
    if k = .Gaming ∨ k = .WebDevelopment ∨ k = .DatabaseDesign then 1.15 else 1
  else if learningStyle = 3 then
    if k = .WebDevelopment ∨ k = .SoftwareValidation then 1.1 else 1
  else if learningStyle = 4 then
    if k = .FuzzyLogic ∨ k = .SoftwareValidation then 1.05 else 1
  else 1

/-- The final (floored, unrounded) score table of the primary scorer on a
record (lines 65-200). -/
def finalScores (data : Record) : Except PyError Courses := do
  let i ← extract data
  finalCourses i

/-- The interest field matching a course (the keys of `interest_scores`,
lines 116-122). -/
def Record.interest (data : Record) : Course → Field
  | .Gaming => data.gameDevelopment
  | .WebDevelopment => data.webDevelopment
  | .FuzzyLogic => data.artificialIntelligence
  | .DatabaseDesign => data.databaseSystem
  | .SoftwareValidation => data.softwareValidation

/-- The record with the interest field matching a course replaced. -/
def Record.setInterest (data : Record) (k : Course) (f : Field) : Record :=
  match k with
  | .Gaming => { data with gameDevelopment := f }
  | .WebDevelopment => { data with webDevelopment := f }
  | .FuzzyLogic => { data with artificialIntelligence := f }
  | .DatabaseDesign => { data with databaseSystem := f }
  | .SoftwareValidation => { data with softwareValidation := f }

/-- The example record: cgpa 3.8, programming 4, gameDevelopment 4, difficulty
2, learningStyle 1, every other field missing. -/
def exampleRecord : Record :=
  { Record.empty with
    cgpa := .num 3.8, programming := .num 4, gameDevelopment := .num 4,
    difficulty := .num 2, learningStyle := .num 1 }

/-- The explicit default record: cgpa 3, the five subject strengths 0, the five
interests 1, difficulty 2, learningStyle 1. -/
def defaultRecord : Record :=
  { cgpa := .num 3
    programming := .num 0
    multimedia := .num 0
    machineLearning := .num 0
    database := .num 0
    softwareEngineering := .num 0
    gameDevelopment := .num 1
    webDevelopment := .num 1
    artificialIntelligence := .num 1
    databaseSystem := .num 1
    softwareValidation := .num 1
    difficulty := .num 2
    learningStyle := .num 1 }

/-- A record with cgpa 2 and gameDevelopment -5, every other field missing. -/
def negativeInterestRecord : Record :=
  { Record.empty with cgpa := .num 2, gameDevelopment := .num (-5) }

/-! ## Properties -/

/-! ### Rounding -/

theorem pyRound_mono {x y : ℚ} (h : x ≤ y) : pyRound x ≤ pyRound y := by
  have hf : ⌊x⌋ ≤ ⌊y⌋ := Int.floor_mono h
  have hx1 := Int.floor_le x
  have hx2 := Int.lt_floor_add_one x
  have hy1 := Int.floor_le y
  have hy2 := Int.lt_floor_add_one y
  rcases hf.lt_or_eq with hlt | heq
  · have hlt2 : ⌊x⌋ + 1 ≤ ⌊y⌋ := hlt
    unfold pyRound
    split_ifs <;> omega
  · unfold pyRound
    rw [heq] at *
    split_ifs <;> first | omega | (exfalso; linarith)

theorem pyRound3_mono {x y : ℚ} (h : x ≤ y) : pyRound3 x ≤ pyRound3 y := by
  unfold pyRound3
  have h1 : pyRound (x * 1000) ≤ pyRound (y * 1000) := pyRound_mono (by linarith)
  have h2 : ((pyRound (x * 1000) : ℤ) : ℚ) ≤ (pyRound (y * 1000) : ℤ) := by exact_mod_cast h1
  linarith

theorem pyRound3_tenth : pyRound3 0.1 = 0.1 := by
  norm_num [pyRound3, pyRound]

theorem pyRound3_ge_tenth {x : ℚ} (h : 0.1 ≤ x) : 0.1 ≤ pyRound3 x :=
  pyRound3_tenth ▸ pyRound3_mono h

/-! ### Extraction -/

theorem pyFloatGet_valid {f : Field} (d : ℚ) (h : f.isValid = true) :
    pyFloatGet f d = .ok (f.getD d) := by
  cases f <;> simp_all [pyFloatGet, Field.getD, Field.isValid]

theorem pyInt_intCast (n : ℤ) : pyInt (n : ℚ) = n := by
  unfold pyInt
  split_ifs
  · exact Int.floor_intCast n
  · rw [← Int.cast_neg, Int.floor_intCast, neg_neg]

theorem pyIntGet_valid {f : Field} (d : ℤ) (h : f.isValid = true) :
    pyIntGet f d = .ok (pyInt (f.getD d)) := by
  cases f <;> simp_all [pyIntGet, Field.getD, Field.isValid, pyInt_intCast]

theorem extract_valid {data : Record} (hv : data.valid = true) :
    extract data = .ok data.input := by
  simp only [Record.valid, Bool.and_eq_true] at hv
  obtain ⟨⟨⟨⟨⟨⟨⟨⟨⟨⟨⟨⟨h1, h2⟩, h3⟩, h4⟩, h5⟩, h6⟩, h7⟩, h8⟩, h9⟩, h10⟩, h11⟩, h12⟩, h13⟩ := hv
  have e1 := pyFloatGet_valid 3 h1
  have e2 := pyIntGet_valid 0 h2
  have e3 := pyIntGet_valid 0 h3
  have e4 := pyIntGet_valid 0 h4
  have e5 := pyIntGet_valid 0 h5
  have e6 := pyIntGet_valid 0 h6
  have e7 := pyIntGet_valid 1 h7
  have e8 := pyIntGet_valid 1 h8
  have e9 := pyIntGet_valid 1 h9
  have e10 := pyIntGet_valid 1 h10
  have e11 := pyIntGet_valid 1 h11
  have e12 := pyIntGet_valid 2 h12
  have e13 := pyIntGet_valid 1 h13
  simp only [Int.cast_zero, Int.cast_one, Int.cast_ofNat] at e2 e3 e4 e5 e6 e7 e8 e9 e10 e11 e12 e13
  simp only [extract, e1, e2, e3, e4, e5, e6, e7, e8, e9, e10, e11, e12, e13, Record.input]
  rfl

/-! ### The rule class and the boost -/

theorem course_recommend_mem (i : Input) :
    course_recommend i = 1 ∨ course_recommend i = 2 ∨ course_recommend i = 3 ∨
      course_recommend i = 4 ∨ course_recommend i = 5 := by
  unfold course_recommend fis_output
  split_ifs <;> norm_num [pyRound]

theorem tree_ok (i : Input) :
    ∃ tree, pyIndexE course_names (course_recommend i - 1) = .ok tree := by
  rcases course_recommend_mem i with h | h | h | h | h <;> rw [h] <;>
    simp [pyIndexE, pyIndex, course_names]

theorem fisBoost_ok (i : Input) (c : Courses) {tree : Course}
    (ht : pyIndexE course_names (course_recommend i - 1) = .ok tree) :
    fisBoost i c = .ok (c.modify tree (fun s => s + 0.3)) := by
  have hg : course_recommend i ≥ 1 ∧ course_recommend i ≤ 5 := by
    rcases course_recommend_mem i with h | h | h | h | h <;> rw [h] <;> decide
  simp only [fisBoost, hg, and_self, if_true, ht]
  rfl

theorem finalCourses_ok (i : Input) {tree : Course}
    (ht : pyIndexE course_names (course_recommend i - 1) = .ok tree) :
    finalCourses i = .ok (floorStep (learningStyleStep i.learning_style
      (difficultyStep i.difficulty ((preBoostCourses i).modify tree (fun s => s + 0.3))))) := by
  simp only [finalCourses, fisBoost_ok i _ ht]
  rfl

theorem floorStep_get (c : Courses) (k : Course) : 0.1 ≤ (floorStep c).get k := by
  cases k <;> simp [floorStep, Courses.forEach, Courses.get]

/-! ### Sorting -/

theorem sortDesc_length (l : List (Course × ℚ)) : (sortDesc l).length = l.length :=
  List.length_insertionSort _ l

theorem sortDesc_perm (l : List (Course × ℚ)) : (sortDesc l).Perm l :=
  List.perm_insertionSort _ l

theorem sortDesc_sorted (l : List (Course × ℚ)) :
    (sortDesc l).Sorted (fun a b => b.2 ≤ a.2) := by
  haveI : IsTotal (Course × ℚ) (fun a b => b.2 ≤ a.2) := ⟨fun a b => le_total b.2 a.2⟩
  haveI : IsTrans (Course × ℚ) (fun a b => b.2 ≤ a.2) := ⟨fun _ _ _ h1 h2 => le_trans h2 h1⟩
  exact List.sorted_insertionSort _ l

theorem sorted_courses_cons (c : Courses) :
    ∃ first second rest, sorted_courses c = first :: second :: rest := by
  have h : (sorted_courses c).length = 5 := by
    simp [sorted_courses, sortDesc_length, Courses.items]
  match hs : sorted_courses c with
  | [] => simp [hs] at h
  | [_] => simp [hs] at h
  | a :: b :: rest => exact ⟨a, b, rest, rfl⟩

theorem items_keys (c : Courses) : c.items.map Prod.fst = course_names := rfl

theorem items_mem (c : Courses) {e : Course × ℚ} (h : e ∈ c.items) : e.2 = c.get e.1 := by
  simp only [Courses.items, List.mem_cons, List.mem_singleton, List.not_mem_nil, or_false] at h
  rcases h with h | h | h | h | h <;> subst h <;> rfl

theorem sortDesc_keys_nodup (c : Courses) : ((sortDesc c.items).map Prod.fst).Nodup := by
  have hp : ((sortDesc c.items).map Prod.fst).Perm course_names :=
    items_keys c ▸ (sortDesc_perm c.items).map Prod.fst
  exact hp.nodup_iff.mpr (by decide)

theorem Course.name_injective : Function.Injective Course.name := by
  intro a b h
  cases a <;> cases b <;> first | rfl | (exact absurd h (by decide))

theorem Course.name_mem (c : Course) : c.name ∈ courseNameList := by
  cases c <;> decide

/-! ### The output record -/

theorem scoreInput_ok (i : Input) (now : String) {tree : Course} {courses : Courses}
    {first second : Course × ℚ} {rest : List (Course × ℚ)}
    (ht : pyIndexE course_names (course_recommend i - 1) = .ok tree)
    (hc : finalCourses i = .ok courses)
    (hs : sorted_courses courses = first :: second :: rest) :
    scoreInput i now = .ok {
      firstRecommendedCourse := first.1.name
      alternativeRecommendedCourse := second.1.name
      firstConfidence := pyRound3 first.2
      secondConfidence := pyRound3 second.2
      Confidence_Expert := pyRound3 first.2
      Confidence_Tree := pyRound3 (courses.get tree)
      probability_Gaming := pyRound3 (courses.get .Gaming)
      probability_WebDevelopment := pyRound3 (courses.get .WebDevelopment)
      probability_FuzzyLogic := pyRound3 (courses.get .FuzzyLogic)
      probability_DatabaseDesign := pyRound3 (courses.get .DatabaseDesign)
      probability_SoftwareValidation_Verification := pyRound3 (courses.get .SoftwareValidation)
      expertRecommendation := first.1.name
      treeRecommendation := tree.name
      finalRecommendation := first.1.name
      fisOutput := pyRound3 (fis_output i)
      timestamp := now } := by
  simp only [scoreInput, hc]
  show (match sorted_courses courses with
    | first :: second :: _ => _
    | _ => _) = _
  rw [hs]
  simp only [ht]
  rfl

theorem generate_valid {data : Record} (now : String) (hv : data.valid = true) :
    generate_recommendation data now = scoreInput data.input now := by
  simp only [generate_recommendation, extract_valid hv]
  rfl

/-! ### Claims -/

/-- C1: for every input record whose fields are missing or numbers (of any
size or sign), the primary scorer returns an output record, and each of its
five `probability_*` scores, rounded to three decimals, is at least `0.1`. -/
theorem C1_probabilities_ge_floor (data : Record) (now : String) (hv : data.valid = true) :
    ∃ out, generate_recommendation data now = .ok out ∧
      0.1 ≤ out.probability_Gaming ∧ 0.1 ≤ out.probability_WebDevelopment ∧
      0.1 ≤ out.probability_FuzzyLogic ∧ 0.1 ≤ out.probability_DatabaseDesign ∧
      0.1 ≤ out.probability_SoftwareValidation_Verification := by
  obtain ⟨tree, ht⟩ := tree_ok data.input
  have hc := finalCourses_ok data.input ht
  obtain ⟨first, second, rest, hs⟩ := sorted_courses_cons (floorStep
    (learningStyleStep data.input.learning_style (difficultyStep data.input.difficulty
      ((preBoostCourses data.input).modify tree (fun s => s + 0.3)))))
  refine ⟨_, (generate_valid now hv).trans (scoreInput_ok data.input now ht hc hs), ?_⟩
  exact ⟨pyRound3_ge_tenth (floorStep_get _ _), pyRound3_ge_tenth (floorStep_get _ _),
    pyRound3_ge_tenth (floorStep_get _ _), pyRound3_ge_tenth (floorStep_get _ _),
    pyRound3_ge_tenth (floorStep_get _ _)⟩

/-- The floor invariant at the empty record. -/
theorem C1_probabilities_ge_floor_witness :
    Record.empty.valid = true ∧
    ∃ out, generate_recommendation Record.empty "2024-01-01 00:00:00" = .ok out ∧
      0.1 ≤ out.probability_Gaming ∧ 0.1 ≤ out.probability_WebDevelopment ∧
      0.1 ≤ out.probability_FuzzyLogic ∧ 0.1 ≤ out.probability_DatabaseDesign ∧
      0.1 ≤ out.probability_SoftwareValidation_Verification :=
  ⟨by decide, C1_probabilities_ge_floor Record.empty "2024-01-01 00:00:00" (by decide)⟩

/-- C2: for every input record whose fields are missing or numbers, the
primary scorer's `firstRecommendedCourse` and `alternativeRecommendedCourse`
are two distinct names among the five course names, and
`firstConfidence ≥ secondConfidence`. -/
theorem C2_top_two_distinct_ordered (data : Record) (now : String) (hv : data.valid = true) :
    ∃ out, generate_recommendation data now = .ok out ∧
      out.firstRecommendedCourse ∈ courseNameList ∧
      out.alternativeRecommendedCourse ∈ courseNameList ∧
      out.firstRecommendedCourse ≠ out.alternativeRecommendedCourse ∧
      out.secondConfidence ≤ out.firstConfidence := by
  obtain ⟨tree, ht⟩ := tree_ok data.input
  have hc := finalCourses_ok data.input ht
  obtain ⟨first, second, rest, hs⟩ := sorted_courses_cons (floorStep
    (learningStyleStep data.input.learning_style (difficultyStep data.input.difficulty
      ((preBoostCourses data.input).modify tree (fun s => s + 0.3)))))
  refine ⟨_, (generate_valid now hv).trans (scoreInput_ok data.input now ht hc hs),
    Course.name_mem _, Course.name_mem _, ?_, ?_⟩
  · have hn := sortDesc_keys_nodup (floorStep
      (learningStyleStep data.input.learning_style (difficultyStep data.input.difficulty
        ((preBoostCourses data.input).modify tree (fun s => s + 0.3)))))
    have hs2 : sortDesc (Courses.items _) = first :: second :: rest := hs
    rw [hs2] at hn
    simp only [List.map_cons, List.nodup_cons, List.mem_cons, not_or] at hn
    exact fun h => hn.1.1 (Course.name_injective h)
  · have hsorted := sortDesc_sorted (Courses.items (floorStep
      (learningStyleStep data.input.learning_style (difficultyStep data.input.difficulty
        ((preBoostCourses data.input).modify tree (fun s => s + 0.3))))))
    have hs2 : sortDesc (Courses.items _) = first :: second :: rest := hs
    rw [hs2] at hsorted
    have h := List.rel_of_sorted_cons hsorted second (List.mem_cons_self _ _)
    exact pyRound3_mono h

/-- The top-two property at the empty record. -/
theorem C2_top_two_distinct_ordered_witness :
    Record.empty.valid = true ∧
    ∃ out, generate_recommendation Record.empty "2024-01-01 00:00:00" = .ok out ∧
      out.firstRecommendedCourse ∈ courseNameList ∧
      out.alternativeRecommendedCourse ∈ courseNameList ∧
      out.firstRecommendedCourse ≠ out.alternativeRecommendedCourse ∧
      out.secondConfidence ≤ out.firstConfidence :=
  ⟨by decide, C2_top_two_distinct_ordered Record.empty "2024-01-01 00:00:00" (by decide)⟩

/-! ### Evaluation at the boundary record -/

theorem boundary_eval (now : String) :
    generate_recommendation boundaryRecord now = .ok {
      firstRecommendedCourse := "Database Design"
      alternativeRecommendedCourse := "Gaming"
      firstConfidence := 0.33
      secondConfidence := 0.1
      Confidence_Expert := 0.33
      Confidence_Tree := 0.33
      probability_Gaming := 0.1
      probability_WebDevelopment := 0.1
      probability_FuzzyLogic := 0.1
      probability_DatabaseDesign := 0.33
      probability_SoftwareValidation_Verification := 0.1
      expertRecommendation := "Database Design"
      treeRecommendation := "Database Design"
      finalRecommendation := "Database Design"
      fisOutput := 4
      timestamp := now } := by
  have hi : boundaryRecord.input = ⟨0, 0, 0, 0, 0, 0, 1, 1, 1, 1, 1, 2, 1⟩ := by
    norm_num [Record.input, boundaryRecord, Field.getD, pyInt]
  have hf : fis_output ⟨0, 0, 0, 0, 0, 0, 1, 1, 1, 1, 1, 2, 1⟩ = 4 := by
    norm_num [fis_output]
  have hr : course_recommend ⟨0, 0, 0, 0, 0, 0, 1, 1, 1, 1, 1, 2, 1⟩ = 4 := by
    norm_num [course_recommend, hf, pyRound]
  have ht : pyIndexE course_names (course_recommend ⟨0, 0, 0, 0, 0, 0, 1, 1, 1, 1, 1, 2, 1⟩ - 1)
      = .ok .DatabaseDesign := by
    rw [hr]; simp [pyIndexE, pyIndex, course_names]
  have hc := finalCourses_ok _ ht
  have hcv : floorStep (learningStyleStep (1 : ℤ) (difficultyStep (2 : ℤ)
      ((preBoostCourses ⟨0, 0, 0, 0, 0, 0, 1, 1, 1, 1, 1, 2, 1⟩).modify .DatabaseDesign
        (fun s => s + 0.3)))) = ⟨0.1, 0.1, 0.1, 0.33, 0.1⟩ := by
    norm_num [floorStep, learningStyleStep, difficultyStep, preBoostCourses, cgpaBoost,
      cgpa_factor, interestScoring, interest_scores, subjectScoring, initCourses,
      Courses.forEach, Courses.modify]
  simp only [hcv] at hc
  have hs : sorted_courses ⟨0.1, 0.1, 0.1, 0.33, 0.1⟩ =
      [(.DatabaseDesign, 0.33), (.Gaming, 0.1), (.WebDevelopment, 0.1), (.FuzzyLogic, 0.1),
       (.SoftwareValidation, 0.1)] := by
    norm_num [sorted_courses, sortDesc, Courses.items, List.insertionSort, List.orderedInsert]
  rw [generate_valid now (by decide), hi, scoreInput_ok _ now ht hc hs]
  norm_num [Courses.get, pyRound3, pyRound, Course.name, hf]

theorem generate_ok_exists {data : Record} (now : String) (hv : data.valid = true) :
    ∃ out, generate_recommendation data now = .ok out := by
  obtain ⟨tree, ht⟩ := tree_ok data.input
  obtain ⟨first, second, rest, hs⟩ := sorted_courses_cons (floorStep
    (learningStyleStep data.input.learning_style (difficultyStep data.input.difficulty
      ((preBoostCourses data.input).modify tree (fun s => s + 0.3)))))
  exact ⟨_, (generate_valid now hv).trans
    (scoreInput_ok data.input now ht (finalCourses_ok data.input ht) hs)⟩

theorem withDefaults_valid (data : Record) : data.withDefaults.valid = true := rfl

theorem withDefaults_input (data : Record) : data.withDefaults.input = data.input := rfl

theorem pyFloatGet_invalid (d : ℚ) : pyFloatGet .invalid d = .error .conversion := rfl

theorem le_pyInt {n : ℤ} (hn : 0 < n) (q : ℚ) : n ≤ pyInt q ↔ (n : ℚ) ≤ q := by
  unfold pyInt
  split_ifs with h
  · exact Int.le_floor
  · have hq : q < 0 := not_le.mp h
    have h1 : (0 : ℤ) ≤ ⌊-q⌋ := Int.floor_nonneg.mpr (by linarith)
    have h2 : (0 : ℚ) < (n : ℚ) := by exact_mod_cast hn
    constructor
    · intro h3; omega
    · intro h3; linarith

/-- C3 (as stated, refuted): on the record with cgpa 0, the five subject
strengths 0 and the other fields at their defaults, the primary scorer does
not return five scores of `0.1` with Gaming first and Web Development second. -/
theorem C3_boundary_not_five_way_tie :
    ¬ ∃ out, generate_recommendation boundaryRecord "2024-01-01 00:00:00" = .ok out ∧
      out.probability_Gaming = 0.1 ∧ out.probability_WebDevelopment = 0.1 ∧
      out.probability_FuzzyLogic = 0.1 ∧ out.probability_DatabaseDesign = 0.1 ∧
      out.probability_SoftwareValidation_Verification = 0.1 ∧
      out.firstRecommendedCourse = "Gaming" ∧
      out.alternativeRecommendedCourse = "Web Development" := by
  rintro ⟨out, ho, -, -, -, hdb, -⟩
  rw [boundary_eval] at ho
  injection ho with ho
  subst ho
  norm_num at hdb

/-- C3 (amended): on the record with cgpa 0, the five subject strengths 0 and
the other fields at their defaults, the primary scorer gives Database Design
the score `0.33` (the `+0.3` rule bonus of the low-performance branch times
the Visual multiplier `1.1`) and the other four courses `0.1`, so
`firstRecommendedCourse` is Database Design and `alternativeRecommendedCourse`
is Gaming, the first of the four tied courses in the course-table order. -/
theorem C3_boundary_scores (now : String) :
    ∃ out, generate_recommendation boundaryRecord now = .ok out ∧
      out.probability_Gaming = 0.1 ∧ out.probability_WebDevelopment = 0.1 ∧
      out.probability_FuzzyLogic = 0.1 ∧ out.probability_DatabaseDesign = 0.33 ∧
      out.probability_SoftwareValidation_Verification = 0.1 ∧
      out.treeRecommendation = "Database Design" ∧
      out.firstRecommendedCourse = "Database Design" ∧
      out.alternativeRecommendedCourse = "Gaming" :=
  ⟨_, boundary_eval now, rfl, rfl, rfl, rfl, rfl, rfl, rfl, rfl⟩

/-- For a record whose fields are missing or numbers, the primary scorer
returns, and it returns the output record it returns for the same record with
every missing field replaced by its documented default. -/
theorem missing_fields_default (data : Record) (now : String) (hv : data.valid = true) :
    (∃ out, generate_recommendation data now = .ok out) ∧
    generate_recommendation data now = generate_recommendation data.withDefaults now := by
  refine ⟨generate_ok_exists now hv, ?_⟩
  rw [generate_valid now hv, generate_valid now (withDefaults_valid data), withDefaults_input]

/-- C4 (code evaluated at the failing input): on the record whose `cgpa` is
`null` and whose other fields are missing, the primary scorer raises instead
of taking the default 3.0, so it does not return the output record it returns
once the field is replaced by its default; the fallback scorer reads the same
`null` as the default 3. -/
theorem C4_invalid_field_raises :
    generate_recommendation nullCgpaRecord "2024-01-01 00:00:00" = .error .conversion ∧
    (∃ out, generate_recommendation nullCgpaRecord.withDefaults "2024-01-01 00:00:00" =
      .ok out) ∧
    generate_recommendation nullCgpaRecord "2024-01-01 00:00:00" ≠
      generate_recommendation nullCgpaRecord.withDefaults "2024-01-01 00:00:00" ∧
    (fallbackParse nullCgpaRecord).cgpa = 3 := by
  have h1 : generate_recommendation nullCgpaRecord "2024-01-01 00:00:00" = .error .conversion :=
    rfl
  obtain ⟨out, ho⟩ := generate_ok_exists "2024-01-01 00:00:00"
    (withDefaults_valid nullCgpaRecord)
  refine ⟨h1, ⟨out, ho⟩, ?_, rfl⟩
  rw [h1, ho]
  exact fun h => by injection h

theorem scoreInput_tree (i : Input) (now : String) (tree : Course)
    (ht : pyIndexE course_names (course_recommend i - 1) = .ok tree) :
    ∃ out, scoreInput i now = .ok out ∧ out.treeRecommendation = tree.name := by
  obtain ⟨first, second, rest, hs⟩ := sorted_courses_cons (floorStep
    (learningStyleStep i.learning_style (difficultyStep i.difficulty
      ((preBoostCourses i).modify tree (fun s => s + 0.3)))))
  exact ⟨_, scoreInput_ok i now ht (finalCourses_ok i ht) hs, rfl⟩

theorem tree_eq {i : Input} (k : ℤ) {c : Course} (h : course_recommend i = k)
    (hk : pyIndexE course_names (k - 1) = .ok c) :
    pyIndexE course_names (course_recommend i - 1) = .ok c := h ▸ hk

/-- C5: for every input record (fields missing or numbers) with cgpa ≥ 4 and
programming ≥ 4, the primary scorer's `treeRecommendation` is Gaming if
gameDevelopment ≥ 3; otherwise Web Development if webDevelopment ≥ 3; otherwise
Fuzzy Logic if artificialIntelligence ≥ 3; otherwise Database Design if
databaseSystem ≥ 3; otherwise Software Validation & Verification. -/
theorem C5_high_performance_cascade (data : Record) (now : String) (hv : data.valid = true)
    (hcgpa : 4 ≤ data.cgpa.getD 3) (hprog : 4 ≤ data.programming.getD 0) :
    ∃ out, generate_recommendation data now = .ok out ∧
      out.treeRecommendation =
        if 3 ≤ data.gameDevelopment.getD 1 then "Gaming"
        else if 3 ≤ data.webDevelopment.getD 1 then "Web Development"
        else if 3 ≤ data.artificialIntelligence.getD 1 then "Fuzzy Logic"
        else if 3 ≤ data.databaseSystem.getD 1 then "Database Design"
        else "Software Validation & Verification" := by
  have hp : (4 : ℤ) ≤ data.input.programming :=
    (le_pyInt (by decide) _).mpr (by exact_mod_cast hprog)
  have hc : (4 : ℚ) ≤ data.input.cgpa := hcgpa
  have e1 : (3 : ℤ) ≤ data.input.game_dev ↔ (3 : ℚ) ≤ data.gameDevelopment.getD 1 := by
    simpa using le_pyInt (n := 3) (by decide) (data.gameDevelopment.getD 1)
  have e2 : (3 : ℤ) ≤ data.input.web_dev ↔ (3 : ℚ) ≤ data.webDevelopment.getD 1 := by
    simpa using le_pyInt (n := 3) (by decide) (data.webDevelopment.getD 1)
  have e3 : (3 : ℤ) ≤ data.input.ai_interest ↔ (3 : ℚ) ≤ data.artificialIntelligence.getD 1 := by
    simpa using le_pyInt (n := 3) (by decide) (data.artificialIntelligence.getD 1)
  have e4 : (3 : ℤ) ≤ data.input.db_interest ↔ (3 : ℚ) ≤ data.databaseSystem.getD 1 := by
    simpa using le_pyInt (n := 3) (by decide) (data.databaseSystem.getD 1)
  have hf : fis_output data.input =
      if 3 ≤ data.gameDevelopment.getD 1 then 1
      else if 3 ≤ data.webDevelopment.getD 1 then 2
      else if 3 ≤ data.artificialIntelligence.getD 1 then 3
      else if 3 ≤ data.databaseSystem.getD 1 then 4
      else 5 := by
    simp only [fis_output, ge_iff_le, hc, hp, and_self, if_true, e1, e2, e3, e4]
    norm_num
  rw [generate_valid now hv]
  by_cases h1 : 3 ≤ data.gameDevelopment.getD 1
  · simp only [h1, if_true] at hf ⊢
    exact scoreInput_tree _ now .Gaming
      (tree_eq 1 (by norm_num [course_recommend, hf, pyRound]) rfl)
  by_cases h2 : 3 ≤ data.webDevelopment.getD 1
  · simp only [h1, h2, if_true, if_false] at hf ⊢
    exact scoreInput_tree _ now .WebDevelopment
      (tree_eq 2 (by norm_num [course_recommend, hf, pyRound]) rfl)
  by_cases h3 : 3 ≤ data.artificialIntelligence.getD 1
  · simp only [h1, h2, h3, if_true, if_false] at hf ⊢
    exact scoreInput_tree _ now .FuzzyLogic
      (tree_eq 3 (by norm_num [course_recommend, hf, pyRound]) rfl)
  by_cases h4 : 3 ≤ data.databaseSystem.getD 1
  · simp only [h1, h2, h3, h4, if_true, if_false] at hf ⊢
    exact scoreInput_tree _ now .DatabaseDesign
      (tree_eq 4 (by norm_num [course_recommend, hf, pyRound]) rfl)
  · simp only [h1, h2, h3, h4, if_false] at hf ⊢
    exact scoreInput_tree _ now .SoftwareValidation
      (tree_eq 5 (by norm_num [course_recommend, hf, pyRound]) rfl)

/-- The cascade at cgpa 4, programming 5 and default interests: none of the
interests reaches 3, so the rule classification is the last course. -/
theorem C5_high_performance_cascade_witness :
    highPerformanceRecord.valid = true ∧ 4 ≤ highPerformanceRecord.cgpa.getD 3 ∧
    4 ≤ highPerformanceRecord.programming.getD 0 ∧
    ∃ out, generate_recommendation highPerformanceRecord "2024-01-01 00:00:00" = .ok out ∧
      out.treeRecommendation = "Software Validation & Verification" := by
  have h := C5_high_performance_cascade highPerformanceRecord "2024-01-01 00:00:00"
    (by decide) (by norm_num [highPerformanceRecord, Field.getD])
    (by norm_num [highPerformanceRecord, Field.getD])
  refine ⟨by decide, by norm_num [highPerformanceRecord, Field.getD],
    by norm_num [highPerformanceRecord, Field.getD], ?_⟩
  obtain ⟨out, ho, ht⟩ := h
  refine ⟨out, ho, ?_⟩
  rw [ht]
  norm_num [highPerformanceRecord, Record.empty, Field.getD]

theorem modify_get_same (c : Courses) (k : Course) (f : ℚ → ℚ) :
    (c.modify k f).get k = f (c.get k) := by
  cases k <;> rfl

theorem modify_get_other (c : Courses) {k k' : Course} (f : ℚ → ℚ) (h : k' ≠ k) :
    (c.modify k f).get k' = c.get k' := by
  cases k <;> cases k' <;> first | rfl | exact absurd rfl h

/-- C6: for every input record (fields missing or numbers), the rounded rule
class is an integer in `[1,5]`, so the guard `1 <= course_recommend <= 5`
holds, and the FIS-boost step applied to any score table adds exactly `0.3` to
the score of the course at that index of `course_names` (the
`treeRecommendation` course) and leaves the other four scores unchanged. -/
theorem C6_boost_frame (data : Record) (now : String) (hv : data.valid = true)
    (c : Courses) :
    ∃ i tree boosted out,
      extract data = .ok i ∧
      (course_recommend i ≥ 1 ∧ course_recommend i ≤ 5) ∧
      pyIndex course_names (course_recommend i - 1) = some tree ∧
      generate_recommendation data now = .ok out ∧
      out.treeRecommendation = tree.name ∧
      fisBoost i c = .ok boosted ∧
      boosted.get tree = c.get tree + 0.3 ∧
      ∀ k, k ≠ tree → boosted.get k = c.get k := by
  obtain ⟨tree, ht⟩ := tree_ok data.input
  obtain ⟨out, ho, hot⟩ := scoreInput_tree data.input now tree ht
  have hg : course_recommend data.input ≥ 1 ∧ course_recommend data.input ≤ 5 := by
    rcases course_recommend_mem data.input with h | h | h | h | h <;> rw [h] <;> decide
  have hidx : pyIndex course_names (course_recommend data.input - 1) = some tree := by
    unfold pyIndexE at ht
    split at ht
    · next a h => injection ht with ht; rw [h, ht]
    · exact absurd ht (fun h => by injection h)
  exact ⟨data.input, tree, _, out, extract_valid hv, hg, hidx,
    (generate_valid now hv).trans ho, hot, fisBoost_ok data.input c ht,
    modify_get_same _ _ _, fun k hk => modify_get_other _ _ hk⟩

/-- The boost frame at the empty record and the all-zero table. -/
theorem C6_boost_frame_witness :
    Record.empty.valid = true ∧
    ∃ i tree boosted out,
      extract Record.empty = .ok i ∧
      (course_recommend i ≥ 1 ∧ course_recommend i ≤ 5) ∧
      pyIndex course_names (course_recommend i - 1) = some tree ∧
      generate_recommendation Record.empty "2024-01-01 00:00:00" = .ok out ∧
      out.treeRecommendation = tree.name ∧
      fisBoost i initCourses = .ok boosted ∧
      boosted.get tree = initCourses.get tree + 0.3 ∧
      ∀ k, k ≠ tree → boosted.get k = initCourses.get k :=
  ⟨by decide, C6_boost_frame Record.empty "2024-01-01 00:00:00" (by decide) initCourses⟩

theorem items_eq_map (c : Courses) : c.items = course_names.map (fun k => (k, c.get k)) := rfl

theorem sortDesc_stable (c : Courses) {a b : Course}
    (hab : List.Sublist [a, b] course_names) (he : c.get a = c.get b) :
    rankedBefore (sortDesc c.items) a b := by
  have h1 : List.Sublist [(a, c.get a), (b, c.get b)] c.items := by
    rw [items_eq_map]
    exact hab.map (fun k => (k, c.get k))
  have key : (fun x y : Course × ℚ => y.2 ≤ x.2) (a, c.get a) (b, c.get b) :=
    le_of_eq he.symm
  have h2 : List.Sublist [(a, c.get a), (b, c.get b)] (sortDesc c.items) :=
    List.pair_sublist_insertionSort key h1
  exact h2.map Prod.fst

/-- C7: for every input record (fields missing or numbers), the primary
scorer's sorted list is a permutation of the five entries of the final score
table, in non-increasing score order, and of two courses with equal final
(floored, unrounded) scores the one that comes earlier in the order Gaming,
Web Development, Fuzzy Logic, Database Design, Software Validation &
Verification stands earlier in the sorted list. -/
theorem C7_sorted_stable (data : Record) (hv : data.valid = true) :
    ∃ i courses,
      extract data = .ok i ∧ finalCourses i = .ok courses ∧
      (sorted_courses courses).Perm courses.items ∧
      (sorted_courses courses).Sorted (fun x y => y.2 ≤ x.2) ∧
      ∀ a b, List.Sublist [a, b] course_names → courses.get a = courses.get b →
        rankedBefore (sorted_courses courses) a b := by
  obtain ⟨tree, ht⟩ := tree_ok data.input
  exact ⟨data.input, _, extract_valid hv, finalCourses_ok data.input ht,
    sortDesc_perm _, sortDesc_sorted _, fun a b hab he => sortDesc_stable _ hab he⟩

/-- The ranking property at the empty record. -/
theorem C7_sorted_stable_witness :
    Record.empty.valid = true ∧
    ∃ i courses,
      extract Record.empty = .ok i ∧ finalCourses i = .ok courses ∧
      (sorted_courses courses).Perm courses.items ∧
      (sorted_courses courses).Sorted (fun x y => y.2 ≤ x.2) ∧
      ∀ a b, List.Sublist [a, b] course_names → courses.get a = courses.get b →
        rankedBefore (sorted_courses courses) a b :=
  ⟨by decide, C7_sorted_stable Record.empty (by decide)⟩

/-! ### The fallback scorer and the handler -/

theorem sortedEntries_cons (inputData : Record) (rnd : Course → ℚ) :
    ∃ first second rest, sortedEntries inputData rnd = first :: second :: rest := by
  have h : (sortedEntries inputData rnd).length = 5 := by
    simp [sortedEntries, sortDesc_length, Courses.items]
  match hs : sortedEntries inputData rnd with
  | [] => simp [hs] at h
  | [_] => simp [hs] at h
  | a :: b :: rest => exact ⟨a, b, rest, rfl⟩

theorem fallback_ok (inputData : Record) (rnd : Course → ℚ) (now : String) :
    ∃ first second rest fb, sortedEntries inputData rnd = first :: second :: rest ∧
      generateIntelligentFallback inputData rnd now = some fb ∧
      fb.firstRecommendedCourse = first.1.name := by
  obtain ⟨first, second, rest, hs⟩ := sortedEntries_cons inputData rnd
  have h : ∃ fb, generateIntelligentFallback inputData rnd now = some fb ∧
      fb.firstRecommendedCourse = first.1.name := by
    simp only [generateIntelligentFallback]
    rw [hs]
    exact ⟨_, rfl, rfl⟩
  obtain ⟨fb, h1, h2⟩ := h
  exact ⟨first, second, rest, fb, hs, h1, h2⟩

/-- The response of the handler for every way the process can end: `success`
is `true`, and `data` is the parsed result exactly when the exit code is 0 and
the result's `error` value is absent or falsy. -/
theorem handler_response (body : Record) (o : ProcessOutcome) (rnd : Course → ℚ)
    (now : String) :
    ∃ fb, generateIntelligentFallback body rnd now = some fb ∧
      recommendHandler body o rnd now = some {
        success := true
        data :=
          match o with
          | .close code _ (some result) =>
            if code = 0 ∧ (result.error = none ∨ result.error = some "") then .primary result
            else .fallback fb
          | _ => .fallback fb } := by
  obtain ⟨first, second, rest, fb, -, hfb, -⟩ := fallback_ok body rnd now
  refine ⟨fb, hfb, ?_⟩
  cases o with
  | spawnError message => simp [recommendHandler, runPython, hfb]
  | close code errorOutput parsed =>
    cases parsed with
    | none => by_cases hc : code = 0 <;> simp [recommendHandler, runPython, hfb, hc]
    | some result =>
      by_cases hc : code = 0
      · cases result with
        | record out => simp [recommendHandler, runPython, hc, PyResult.error]
        | errorRecord error =>
          by_cases he : error = "" <;>
            simp [recommendHandler, runPython, hfb, hc, PyResult.error, he]
      · simp [recommendHandler, runPython, hfb, hc]

/-- C8: for every input record and every outcome of the primary scorer (a
result record, a result carrying an `error` key whose value is the text of the
caught exception, unparsable output, a non-zero exit code, or a spawn
failure), the handler responds with `success = true`; its `data` is the
primary result when the primary scorer succeeded (exit code 0 and a result
record) and the output of `generateIntelligentFallback` on the request body
otherwise. -/
theorem C8_handler_always_succeeds (body : Record) (o : ProcessOutcome) (rnd : Course → ℚ)
    (now : String) (htext : o.errorHasText = true) :
    ∃ fb, generateIntelligentFallback body rnd now = some fb ∧
      recommendHandler body o rnd now = some {
        success := true
        data :=
          match o with
          | .close code _ (some (.record out)) =>
            if code = 0 then .primary (.record out) else .fallback fb
          | _ => .fallback fb } := by
  obtain ⟨fb, hfb, hresp⟩ := handler_response body o rnd now
  refine ⟨fb, hfb, ?_⟩
  rw [hresp]
  cases o with
  | spawnError message => rfl
  | close code errorOutput parsed =>
    cases parsed with
    | none => rfl
    | some result =>
      cases result with
      | record out => simp [PyResult.error]
      | errorRecord error =>
        have he : error ≠ "" := by
          simpa [ProcessOutcome.errorHasText] using htext
        simp [PyResult.error, he]

/-- The handler on an error record: exit code 0 and the text of a failed
conversion; the response carries the fallback's output. -/
theorem C8_handler_always_succeeds_witness :
    (ProcessOutcome.close 0 ""
      (some (.errorRecord "could not convert string to float"))).errorHasText = true ∧
    ∃ fb, generateIntelligentFallback Record.empty (fun _ => 0) "2024-01-01 00:00:00" =
        some fb ∧
      recommendHandler Record.empty
          (.close 0 "" (some (.errorRecord "could not convert string to float")))
          (fun _ => 0) "2024-01-01 00:00:00" =
        some { success := true, data := .fallback fb } :=
  ⟨by decide, C8_handler_always_succeeds Record.empty
    (.close 0 "" (some (.errorRecord "could not convert string to float")))
    (fun _ => 0) "2024-01-01 00:00:00" (by decide)⟩

/-- C9 (code evaluated at the failing input): on the record with cgpa 0,
programming 5, gameDevelopment 0 and the other interests 5, the fallback's
scores before the multipliers and the jitter are 3.1 for Gaming and 4.7 for
Web Development, whereas the formula on the given values yields 1.5 and 3.5:
the given cgpa 0 is replaced by 3 and the given interest 0 by 1. -/
theorem C9_fallback_zero_replaced :
    (initScores (fallbackParse zeroCgpaRecord)).get .Gaming = 3.1 ∧
    (zeroCgpaRecord.cgpa.getD 3 / 5) * 2 + (zeroCgpaRecord.programming.getD 0 / 5) * 1.5 +
      (zeroCgpaRecord.gameDevelopment.getD 1 / 5) * 2 = 1.5 ∧
    (initScores (fallbackParse zeroCgpaRecord)).get .WebDevelopment = 4.7 ∧
    (zeroCgpaRecord.cgpa.getD 3 / 5) * 2 + (zeroCgpaRecord.programming.getD 0 / 5) * 1.5 +
      (zeroCgpaRecord.webDevelopment.getD 1 / 5) * 2 = 3.5 := by
  norm_num [initScores, baseScore, fallbackParse, zeroCgpaRecord, Record.empty, jsOr,
    jsParseFloat, jsParseInt, pyInt, Courses.get, Field.getD]

theorem pair_sublist_or {α : Type} {l : List α} {a b : α} (ha : a ∈ l) (hb : b ∈ l)
    (hab : a ≠ b) : List.Sublist [a, b] l ∨ List.Sublist [b, a] l := by
  induction l with
  | nil => cases ha
  | cons x t ih =>
    by_cases hax : a = x
    · subst hax
      have hbt : b ∈ t := by
        rcases List.mem_cons.mp hb with h | h
        · exact absurd h.symm hab
        · exact h
      exact Or.inl (List.Sublist.cons₂ a (List.singleton_sublist.mpr hbt))
    · by_cases hbx : b = x
      · subst hbx
        have hat : a ∈ t := by
          rcases List.mem_cons.mp ha with h | h
          · exact absurd h hax
          · exact h
        exact Or.inr (List.Sublist.cons₂ b (List.singleton_sublist.mpr hat))
      · have hat : a ∈ t := by
          rcases List.mem_cons.mp ha with h | h
          · exact absurd h hax
          · exact h
        have hbt : b ∈ t := by
          rcases List.mem_cons.mp hb with h | h
          · exact absurd h hbx
          · exact h
        rcases ih hat hbt with h | h
        · exact Or.inl (h.cons x)
        · exact Or.inr (h.cons x)

theorem item_mem (c : Courses) (k : Course) : (k, c.get k) ∈ c.items := by
  cases k <;> simp [Courses.items, Courses.get]

theorem sortDesc_ranks_greater (c : Courses) {a b : Course} (h : c.get b < c.get a) :
    rankedBefore (sortDesc c.items) a b := by
  have hne : ((a, c.get a) : Course × ℚ) ≠ (b, c.get b) := by
    intro he
    have := congrArg Prod.snd he
    simp only at this
    linarith
  have ha : (a, c.get a) ∈ sortDesc c.items := (sortDesc_perm _).mem_iff.mpr (item_mem c a)
  have hb : (b, c.get b) ∈ sortDesc c.items := (sortDesc_perm _).mem_iff.mpr (item_mem c b)
  rcases pair_sublist_or ha hb hne with hs | hs
  · exact hs.map Prod.fst
  · have hp : List.Pairwise (fun x y : Course × ℚ => y.2 ≤ x.2) [(b, c.get b), (a, c.get a)] :=
      List.Pairwise.sublist hs (sortDesc_sorted c.items)
    have hle : c.get a ≤ c.get b := by
      simpa using hp
    linarith

theorem addJitter_get (rnd : Course → ℚ) (s : Courses) (k : Course) :
    (addJitter rnd s).get k = s.get k + rnd k * 0.1 := by
  cases k <;> rfl

/-- In exact arithmetic (no rounding of the sums), for all random draws in
`[0, 1)`: if the jitter-free score of course `a` exceeds that of course `b` by
more than `0.1`, then `a` stands before `b` in `sortedEntries` and the
fallback's `firstRecommendedCourse` is not `b`. -/
theorem exact_jitter_respects_gaps (inputData : Record) (rnd : Course → ℚ) (now : String)
    (a b : Course) (hr : ∀ k, 0 ≤ rnd k ∧ rnd k < 1)
    (hgap : (jitterFreeScores inputData).get b + 0.1 < (jitterFreeScores inputData).get a) :
    rankedBefore (sortedEntries inputData rnd) a b ∧
    ∃ fb, generateIntelligentFallback inputData rnd now = some fb ∧
      fb.firstRecommendedCourse ≠ b.name := by
  have hlt : (fallbackScores inputData rnd).get b < (fallbackScores inputData rnd).get a := by
    simp only [fallbackScores, addJitter_get]
    have h1 := (hr a).1
    have h2 := (hr b).2
    linarith
  have hrank : rankedBefore (sortedEntries inputData rnd) a b := sortDesc_ranks_greater _ hlt
  refine ⟨hrank, ?_⟩
  obtain ⟨first, second, rest, fb, hs, hfb, hfirst⟩ := fallback_ok inputData rnd now
  refine ⟨fb, hfb, ?_⟩
  rw [hfirst]
  intro hname
  have hfb' : first.1 = b := Course.name_injective hname
  have hab : a ≠ b := by
    intro he
    rw [he] at hlt
    exact lt_irrefl _ hlt
  have hn := sortDesc_keys_nodup (fallbackScores inputData rnd)
  have hs' : sortDesc (fallbackScores inputData rnd).items = first :: second :: rest := hs
  unfold rankedBefore at hrank
  rw [hs] at hrank
  rw [hs'] at hn
  simp only [List.map_cons, hfb'] at hrank hn
  have hbnot : b ∉ second.1 :: List.map Prod.fst rest := (List.nodup_cons.mp hn).1
  cases hrank with
  | cons _ h => exact hbnot (h.subset (by simp))
  | cons₂ _ h => exact hab rfl

/-! ### The multiplier steps -/

theorem intCast_eq_one_iff (d : ℤ) : (d : ℚ) = 1 ↔ d = 1 := by
  exact_mod_cast Iff.rfl

/-- C11: for every difficulty in {1,2,3} and every learningStyle in {1,2,3,4}
(read from the record's field by both scorers as that same integer), the
difficulty step and the learning-style step of the fallback scorer multiply
each course's score by the same factor as the corresponding step of the
primary scorer, namely the factor of the specification's table (Easy: Web
Development and Database Design x1.2; Moderate: Gaming and Validation x1.1;
Difficult: Fuzzy Logic x1.2; Visual: Gaming, Fuzzy Logic, Database Design
x1.1; Kinesthetic: Gaming, Web Development, Database Design x1.15;
Reading/Writing: Web Development, Validation x1.1; Auditory: Fuzzy Logic,
Validation x1.05; every other course x1). -/
theorem C11_fallback_multipliers_match (d ls : ℤ) (c : Courses) (k : Course)
    (hd : d = 1 ∨ d = 2 ∨ d = 3) (hl : ls = 1 ∨ ls = 2 ∨ ls = 3 ∨ ls = 4) :
    (fallbackDifficulty (d : ℚ) c).get k = c.get k * specDifficultyMultiplier d k ∧
    (difficultyStep d c).get k = c.get k * specDifficultyMultiplier d k ∧
    (fallbackLearningStyle (ls : ℚ) c).get k = c.get k * specLearningStyleMultiplier ls k ∧
    (learningStyleStep ls c).get k = c.get k * specLearningStyleMultiplier ls k ∧
    (∀ data : Record, data.difficulty = .num d → data.learningStyle = .num ls →
      (fallbackParse data).difficulty = d ∧ (fallbackParse data).learningStyle = ls ∧
      pyIntGet data.difficulty 2 = .ok d ∧ pyIntGet data.learningStyle 1 = .ok ls) := by
  refine ⟨?_, ?_, ?_, ?_, ?_⟩
  · rcases hd with h | h | h <;> subst h <;> cases k <;>
      simp +decide [fallbackDifficulty, specDifficultyMultiplier, Courses.get]
  · rcases hd with h | h | h <;> subst h <;> cases k <;>
      simp +decide [difficultyStep, specDifficultyMultiplier, Courses.get]
  · rcases hl with h | h | h | h <;> subst h <;> cases k <;>
      simp +decide [fallbackLearningStyle, specLearningStyleMultiplier, Courses.get]
  · rcases hl with h | h | h | h <;> subst h <;> cases k <;>
      simp +decide [learningStyleStep, specLearningStyleMultiplier, Courses.get]
  · intro data h1 h2
    have hd0 : (d : ℚ) ≠ 0 := by
      rcases hd with h | h | h <;> subst h <;> norm_num
    have hl0 : (ls : ℚ) ≠ 0 := by
      rcases hl with h | h | h | h <;> subst h <;> norm_num
    simp [fallbackParse, h1, h2, jsParseInt, jsOr, pyIntGet, pyInt_intCast, hd0, hl0]

/-- The multiplier agreement for the Moderate difficulty and the Visual
learning style at Gaming, on the all-zero table. -/
theorem C11_fallback_multipliers_match_witness :
    ((2 : ℤ) = 1 ∨ (2 : ℤ) = 2 ∨ (2 : ℤ) = 3) ∧
    ((1 : ℤ) = 1 ∨ (1 : ℤ) = 2 ∨ (1 : ℤ) = 3 ∨ (1 : ℤ) = 4) ∧
    (fallbackDifficulty ((2 : ℤ) : ℚ) initCourses).get .Gaming =
      initCourses.get .Gaming * specDifficultyMultiplier 2 .Gaming ∧
    (difficultyStep 2 initCourses).get .Gaming =
      initCourses.get .Gaming * specDifficultyMultiplier 2 .Gaming ∧
    (fallbackLearningStyle ((1 : ℤ) : ℚ) initCourses).get .Gaming =
      initCourses.get .Gaming * specLearningStyleMultiplier 1 .Gaming ∧
    (learningStyleStep 1 initCourses).get .Gaming =
      initCourses.get .Gaming * specLearningStyleMultiplier 1 .Gaming ∧
    (∀ data : Record, data.difficulty = .num ((2 : ℤ) : ℚ) →
      data.learningStyle = .num ((1 : ℤ) : ℚ) →
      (fallbackParse data).difficulty = (2 : ℤ) ∧ (fallbackParse data).learningStyle = (1 : ℤ) ∧
      pyIntGet data.difficulty 2 = .ok 2 ∧ pyIntGet data.learningStyle 1 = .ok 1) :=
  ⟨by decide, by decide,
    C11_fallback_multipliers_match 2 1 initCourses .Gaming (by decide) (by decide)⟩

/-! ### Pointwise behaviour of the steps after the boost -/

theorem difficultyStep_get_mono (d : ℤ) {c c' : Courses} {k : Course}
    (h : c.get k ≤ c'.get k) : (difficultyStep d c).get k ≤ (difficultyStep d c').get k := by
  unfold difficultyStep
  split_ifs <;> cases k <;> simp only [Courses.get] at h ⊢ <;>
    first | exact h | (norm_num; linarith)

theorem learningStyleStep_get_mono (ls : ℤ) {c c' : Courses} {k : Course}
    (h : c.get k ≤ c'.get k) :
    (learningStyleStep ls c).get k ≤ (learningStyleStep ls c').get k := by
  unfold learningStyleStep
  split_ifs <;> cases k <;> simp only [Courses.get] at h ⊢ <;>
    first | exact h | (norm_num; linarith)

theorem floorStep_get_mono {c c' : Courses} {k : Course}
    (h : c.get k ≤ c'.get k) : (floorStep c).get k ≤ (floorStep c').get k := by
  cases k <;> simp only [floorStep, Courses.forEach, Courses.get] at h ⊢ <;>
    exact max_le_max h le_rfl

theorem postBoost_get_mono (d ls : ℤ) {c c' : Courses} {k : Course}
    (h : c.get k ≤ c'.get k) :
    (floorStep (learningStyleStep ls (difficultyStep d c))).get k ≤
      (floorStep (learningStyleStep ls (difficultyStep d c'))).get k :=
  floorStep_get_mono (learningStyleStep_get_mono ls (difficultyStep_get_mono d h))

theorem postBoost_get_congr (d ls : ℤ) {c c' : Courses} {k : Course}
    (h : c.get k = c'.get k) :
    (floorStep (learningStyleStep ls (difficultyStep d c))).get k =
      (floorStep (learningStyleStep ls (difficultyStep d c'))).get k :=
  le_antisymm (postBoost_get_mono d ls h.le) (postBoost_get_mono d ls h.ge)

theorem finalCourses_inj {i : Input} {tree : Course} {c : Courses}
    (ht : pyIndexE course_names (course_recommend i - 1) = .ok tree)
    (hc : finalCourses i = .ok c) :
    c = floorStep (learningStyleStep i.learning_style
      (difficultyStep i.difficulty ((preBoostCourses i).modify tree (fun s => s + 0.3)))) := by
  rw [finalCourses_ok i ht] at hc
  injection hc with hc
  exact hc.symm

theorem finalCourses_get_mono {i i' : Input} {k : Course} {c c' : Courses}
    (hd : i'.difficulty = i.difficulty) (hl : i'.learning_style = i.learning_style)
    (htree : ∀ t t', pyIndexE course_names (course_recommend i - 1) = .ok t →
      pyIndexE course_names (course_recommend i' - 1) = .ok t' → t = k → t' = k)
    (hp : (preBoostCourses i).get k ≤ (preBoostCourses i').get k)
    (hc : finalCourses i = .ok c) (hc' : finalCourses i' = .ok c') :
    c.get k ≤ c'.get k := by
  obtain ⟨t, ht⟩ := tree_ok i
  obtain ⟨t', ht'⟩ := tree_ok i'
  rw [finalCourses_inj ht hc, finalCourses_inj ht' hc', hd, hl]
  apply postBoost_get_mono
  by_cases hk : t = k
  · have hk' : t' = k := htree t t' ht ht' hk
    subst hk
    rw [hk', modify_get_same, modify_get_same]
    linarith
  · rw [modify_get_other _ _ (Ne.symm hk)]
    by_cases hk' : t' = k
    · subst hk'
      rw [modify_get_same]
      norm_num
      linarith
    · rw [modify_get_other _ _ (Ne.symm hk')]
      exact hp

theorem finalCourses_get_congr {i i' : Input} {k : Course} {c c' : Courses}
    (hd : i'.difficulty = i.difficulty) (hl : i'.learning_style = i.learning_style)
    (hf : fis_output i' = fis_output i)
    (hp : (preBoostCourses i').get k = (preBoostCourses i).get k)
    (hc : finalCourses i = .ok c) (hc' : finalCourses i' = .ok c') :
    c'.get k = c.get k := by
  have hcr : course_recommend i' = course_recommend i := by
    simp only [course_recommend, hf]
  have h1 : ∀ t t', pyIndexE course_names (course_recommend i - 1) = .ok t →
      pyIndexE course_names (course_recommend i' - 1) = .ok t' → t = k → t' = k := by
    intro t t' ht ht' hk
    rw [hcr, ht] at ht'
    injection ht' with ht'
    exact ht' ▸ hk
  have h2 : ∀ t t', pyIndexE course_names (course_recommend i' - 1) = .ok t →
      pyIndexE course_names (course_recommend i - 1) = .ok t' → t = k → t' = k := by
    intro t t' ht ht' hk
    rw [hcr, ht'] at ht
    injection ht with ht
    exact ht ▸ hk
  exact le_antisymm (finalCourses_get_mono hd.symm hl.symm h2 hp.le hc' hc)
    (finalCourses_get_mono hd hl h1 hp.ge hc hc')

theorem finalScores_valid {data : Record} (hv : data.valid = true) :
    finalScores data = finalCourses data.input := by
  simp only [finalScores, extract_valid hv]
  rfl

theorem finalCourses_exists (i : Input) : ∃ c, finalCourses i = .ok c := by
  obtain ⟨t, ht⟩ := tree_ok i
  exact ⟨_, finalCourses_ok i ht⟩

theorem subjectScoring_get (i : Input) (c : Courses) :
    (subjectScoring i c).gaming = c.gaming
      + (if i.programming > 0 then (i.programming : ℚ) / 5.0 * 0.7 else 0)
      + (if i.multimedia > 0 then (i.multimedia : ℚ) / 5.0 * 1.0 else 0) ∧
    (subjectScoring i c).web = c.web
      + (if i.programming > 0 then (i.programming : ℚ) / 5.0 * 1.0 else 0)
      + (if i.multimedia > 0 then (i.multimedia : ℚ) / 5.0 * 0.8 else 0)
      + (if i.software_eng > 0 then (i.software_eng : ℚ) / 5.0 * 0.8 else 0) ∧
    (subjectScoring i c).fuzzy = c.fuzzy
      + (if i.programming > 0 then (i.programming : ℚ) / 5.0 * 0.6 else 0)
      + (if i.machine_learning > 0 then (i.machine_learning : ℚ) / 5.0 * 1.0 else 0) ∧
    (subjectScoring i c).db = c.db
      + (if i.programming > 0 then (i.programming : ℚ) / 5.0 * 0.8 else 0)
      + (if i.database > 0 then (i.database : ℚ) / 5.0 * 1.0 else 0) ∧
    (subjectScoring i c).valid = c.valid
      + (if i.programming > 0 then (i.programming : ℚ) / 5.0 * 0.9 else 0)
      + (if i.software_eng > 0 then (i.software_eng : ℚ) / 5.0 * 1.0 else 0) := by
  unfold subjectScoring
  by_cases h1 : i.programming > 0 <;> by_cases h2 : i.multimedia > 0 <;>
    by_cases h3 : i.machine_learning > 0 <;> by_cases h4 : i.database > 0 <;>
    by_cases h5 : i.software_eng > 0 <;>
    simp only [h1, h2, h3, h4, h5, if_true, if_false, add_zero, and_self]

/-! ### Frame of the subject-strength fields -/

theorem preBoost_get (i : Input) (k : Course) :
    (preBoostCourses i).get k =
      ((subjectScoring i initCourses).get k + interest_scores i k) * cgpa_factor i := by
  cases k <;> rfl

theorem subject_gaming_congr {i i' : Input} (c : Courses)
    (hp : i'.programming = i.programming) (hm : i'.multimedia = i.multimedia) :
    (subjectScoring i' c).get .Gaming = (subjectScoring i c).get .Gaming := by
  show (subjectScoring i' c).gaming = (subjectScoring i c).gaming
  rw [(subjectScoring_get i' c).1, (subjectScoring_get i c).1, hp, hm]

theorem subject_web_congr {i i' : Input} (c : Courses)
    (hp : i'.programming = i.programming) (hm : i'.multimedia = i.multimedia)
    (hs : i'.software_eng = i.software_eng) :
    (subjectScoring i' c).get .WebDevelopment = (subjectScoring i c).get .WebDevelopment := by
  show (subjectScoring i' c).web = (subjectScoring i c).web
  rw [(subjectScoring_get i' c).2.1, (subjectScoring_get i c).2.1, hp, hm, hs]

theorem subject_fuzzy_congr {i i' : Input} (c : Courses)
    (hp : i'.programming = i.programming) (hm : i'.machine_learning = i.machine_learning) :
    (subjectScoring i' c).get .FuzzyLogic = (subjectScoring i c).get .FuzzyLogic := by
  show (subjectScoring i' c).fuzzy = (subjectScoring i c).fuzzy
  rw [(subjectScoring_get i' c).2.2.1, (subjectScoring_get i c).2.2.1, hp, hm]

theorem subject_db_congr {i i' : Input} (c : Courses)
    (hp : i'.programming = i.programming) (hd : i'.database = i.database) :
    (subjectScoring i' c).get .DatabaseDesign = (subjectScoring i c).get .DatabaseDesign := by
  show (subjectScoring i' c).db = (subjectScoring i c).db
  rw [(subjectScoring_get i' c).2.2.2.1, (subjectScoring_get i c).2.2.2.1, hp, hd]

theorem subject_valid_congr {i i' : Input} (c : Courses)
    (hp : i'.programming = i.programming) (hs : i'.software_eng = i.software_eng) :
    (subjectScoring i' c).get .SoftwareValidation =
      (subjectScoring i c).get .SoftwareValidation := by
  show (subjectScoring i' c).valid = (subjectScoring i c).valid
  rw [(subjectScoring_get i' c).2.2.2.2, (subjectScoring_get i c).2.2.2.2, hp, hs]

theorem preBoost_get_congr {i i' : Input} {k : Course}
    (hs : (subjectScoring i' initCourses).get k = (subjectScoring i initCourses).get k)
    (hi : interest_scores i' k = interest_scores i k) (hc : i'.cgpa = i.cgpa) :
    (preBoostCourses i').get k = (preBoostCourses i).get k := by
  rw [preBoost_get, preBoost_get, hs, hi]
  simp only [cgpa_factor, hc]

theorem fis_output_congr {i i' : Input} (h1 : i'.cgpa = i.cgpa)
    (h2 : i'.programming = i.programming) (h3 : i'.game_dev = i.game_dev)
    (h4 : i'.web_dev = i.web_dev) (h5 : i'.ai_interest = i.ai_interest)
    (h6 : i'.db_interest = i.db_interest) (h7 : i'.difficulty = i.difficulty) :
    fis_output i' = fis_output i := by
  unfold fis_output
  rw [h1, h2, h3, h4, h5, h6, h7]

theorem finalCourses_frame (i i' : Input) (k : Course) {c c' : Courses}
    (hd : i'.difficulty = i.difficulty) (hl : i'.learning_style = i.learning_style)
    (hf : fis_output i' = fis_output i)
    (hs : (subjectScoring i' initCourses).get k = (subjectScoring i initCourses).get k)
    (hi : interest_scores i' k = interest_scores i k) (hcg : i'.cgpa = i.cgpa)
    (hc : finalCourses i = .ok c) (hc' : finalCourses i' = .ok c') :
    c'.get k = c.get k :=
  finalCourses_get_congr hd hl hf (preBoost_get_congr hs hi hcg) hc hc'

theorem final_multimedia (i : Input) (m : ℤ) {c c' : Courses}
    (hc : finalCourses i = .ok c) (hc' : finalCourses { i with multimedia := m } = .ok c') :
    c'.get .FuzzyLogic = c.get .FuzzyLogic ∧ c'.get .DatabaseDesign = c.get .DatabaseDesign ∧
    c'.get .SoftwareValidation = c.get .SoftwareValidation := by
  have hf : fis_output { i with multimedia := m } = fis_output i :=
    fis_output_congr rfl rfl rfl rfl rfl rfl rfl
  exact ⟨finalCourses_frame i { i with multimedia := m } .FuzzyLogic rfl rfl hf
      (subject_fuzzy_congr _ rfl rfl) rfl rfl hc hc',
    finalCourses_frame i { i with multimedia := m } .DatabaseDesign rfl rfl hf
      (subject_db_congr _ rfl rfl) rfl rfl hc hc',
    finalCourses_frame i { i with multimedia := m } .SoftwareValidation rfl rfl hf
      (subject_valid_congr _ rfl rfl) rfl rfl hc hc'⟩

theorem final_machine_learning (i : Input) (m : ℤ) {c c' : Courses}
    (hc : finalCourses i = .ok c)
    (hc' : finalCourses { i with machine_learning := m } = .ok c') :
    c'.get .Gaming = c.get .Gaming ∧ c'.get .WebDevelopment = c.get .WebDevelopment ∧
    c'.get .DatabaseDesign = c.get .DatabaseDesign ∧
    c'.get .SoftwareValidation = c.get .SoftwareValidation := by
  have hf : fis_output { i with machine_learning := m } = fis_output i :=
    fis_output_congr rfl rfl rfl rfl rfl rfl rfl
  exact ⟨finalCourses_frame i { i with machine_learning := m } .Gaming rfl rfl hf
      (subject_gaming_congr _ rfl rfl) rfl rfl hc hc',
    finalCourses_frame i { i with machine_learning := m } .WebDevelopment rfl rfl hf
      (subject_web_congr _ rfl rfl rfl) rfl rfl hc hc',
    finalCourses_frame i { i with machine_learning := m } .DatabaseDesign rfl rfl hf
      (subject_db_congr _ rfl rfl) rfl rfl hc hc',
    finalCourses_frame i { i with machine_learning := m } .SoftwareValidation rfl rfl hf
      (subject_valid_congr _ rfl rfl) rfl rfl hc hc'⟩

theorem final_database (i : Input) (m : ℤ) {c c' : Courses}
    (hc : finalCourses i = .ok c) (hc' : finalCourses { i with database := m } = .ok c') :
    c'.get .Gaming = c.get .Gaming ∧ c'.get .WebDevelopment = c.get .WebDevelopment ∧
    c'.get .FuzzyLogic = c.get .FuzzyLogic ∧
    c'.get .SoftwareValidation = c.get .SoftwareValidation := by
  have hf : fis_output { i with database := m } = fis_output i :=
    fis_output_congr rfl rfl rfl rfl rfl rfl rfl
  exact ⟨finalCourses_frame i { i with database := m } .Gaming rfl rfl hf
      (subject_gaming_congr _ rfl rfl) rfl rfl hc hc',
    finalCourses_frame i { i with database := m } .WebDevelopment rfl rfl hf
      (subject_web_congr _ rfl rfl rfl) rfl rfl hc hc',
    finalCourses_frame i { i with database := m } .FuzzyLogic rfl rfl hf
      (subject_fuzzy_congr _ rfl rfl) rfl rfl hc hc',
    finalCourses_frame i { i with database := m } .SoftwareValidation rfl rfl hf
      (subject_valid_congr _ rfl rfl) rfl rfl hc hc'⟩

theorem final_software_eng (i : Input) (m : ℤ) {c c' : Courses}
    (hc : finalCourses i = .ok c) (hc' : finalCourses { i with software_eng := m } = .ok c') :
    c'.get .Gaming = c.get .Gaming ∧ c'.get .FuzzyLogic = c.get .FuzzyLogic ∧
    c'.get .DatabaseDesign = c.get .DatabaseDesign := by
  have hf : fis_output { i with software_eng := m } = fis_output i :=
    fis_output_congr rfl rfl rfl rfl rfl rfl rfl
  exact ⟨finalCourses_frame i { i with software_eng := m } .Gaming rfl rfl hf
      (subject_gaming_congr _ rfl rfl) rfl rfl hc hc',
    finalCourses_frame i { i with software_eng := m } .FuzzyLogic rfl rfl hf
      (subject_fuzzy_congr _ rfl rfl) rfl rfl hc hc',
    finalCourses_frame i { i with software_eng := m } .DatabaseDesign rfl rfl hf
      (subject_db_congr _ rfl rfl) rfl rfl hc hc'⟩

/-- C12: for every pair of input records (fields missing or numbers) that
differ only in one subject-strength field, the primary scorer's final scores
of the courses that field does not contribute to are equal: multimedia leaves
Fuzzy Logic, Database Design and Software Validation & Verification unchanged;
machineLearning leaves every course but Fuzzy Logic unchanged; database leaves
every course but Database Design unchanged; softwareEngineering leaves Gaming,
Fuzzy Logic and Database Design unchanged. -/
theorem C12_subject_frame (data : Record) (f : Field) (hv : data.valid = true)
    (hf : f.isValid = true) :
    ∃ c cmm cml cdb cse,
      finalScores data = .ok c ∧
      finalScores { data with multimedia := f } = .ok cmm ∧
      finalScores { data with machineLearning := f } = .ok cml ∧
      finalScores { data with database := f } = .ok cdb ∧
      finalScores { data with softwareEngineering := f } = .ok cse ∧
      (cmm.fuzzy = c.fuzzy ∧ cmm.db = c.db ∧ cmm.valid = c.valid) ∧
      (cml.gaming = c.gaming ∧ cml.web = c.web ∧ cml.db = c.db ∧ cml.valid = c.valid) ∧
      (cdb.gaming = c.gaming ∧ cdb.web = c.web ∧ cdb.fuzzy = c.fuzzy ∧ cdb.valid = c.valid) ∧
      (cse.gaming = c.gaming ∧ cse.fuzzy = c.fuzzy ∧ cse.db = c.db) := by
  have hv' := hv
  simp only [Record.valid, Bool.and_eq_true] at hv'
  have hvmm : ({ data with multimedia := f } : Record).valid = true := by
    simp only [Record.valid, Bool.and_eq_true]; tauto
  have hvml : ({ data with machineLearning := f } : Record).valid = true := by
    simp only [Record.valid, Bool.and_eq_true]; tauto
  have hvdb : ({ data with database := f } : Record).valid = true := by
    simp only [Record.valid, Bool.and_eq_true]; tauto
  have hvse : ({ data with softwareEngineering := f } : Record).valid = true := by
    simp only [Record.valid, Bool.and_eq_true]; tauto
  have emm : ({ data with multimedia := f } : Record).input =
      { data.input with multimedia := pyInt (f.getD 0) } := rfl
  have eml : ({ data with machineLearning := f } : Record).input =
      { data.input with machine_learning := pyInt (f.getD 0) } := rfl
  have edb : ({ data with database := f } : Record).input =
      { data.input with database := pyInt (f.getD 0) } := rfl
  have ese : ({ data with softwareEngineering := f } : Record).input =
      { data.input with software_eng := pyInt (f.getD 0) } := rfl
  obtain ⟨c, hc⟩ := finalCourses_exists data.input
  obtain ⟨cmm, hcmm⟩ := finalCourses_exists { data.input with multimedia := pyInt (f.getD 0) }
  obtain ⟨cml, hcml⟩ :=
    finalCourses_exists { data.input with machine_learning := pyInt (f.getD 0) }
  obtain ⟨cdb, hcdb⟩ := finalCourses_exists { data.input with database := pyInt (f.getD 0) }
  obtain ⟨cse, hcse⟩ := finalCourses_exists { data.input with software_eng := pyInt (f.getD 0) }
  exact ⟨c, cmm, cml, cdb, cse, (finalScores_valid hv).trans hc,
    (finalScores_valid hvmm).trans (emm ▸ hcmm), (finalScores_valid hvml).trans (eml ▸ hcml),
    (finalScores_valid hvdb).trans (edb ▸ hcdb), (finalScores_valid hvse).trans (ese ▸ hcse),
    final_multimedia _ _ hc hcmm, final_machine_learning _ _ hc hcml,
    final_database _ _ hc hcdb, final_software_eng _ _ hc hcse⟩

/-- The frame property at the empty record with the changed field set to 5. -/
theorem C12_subject_frame_witness :
    Record.empty.valid = true ∧ (Field.num 5).isValid = true ∧
    ∃ c cmm cml cdb cse,
      finalScores Record.empty = .ok c ∧
      finalScores { Record.empty with multimedia := .num 5 } = .ok cmm ∧
      finalScores { Record.empty with machineLearning := .num 5 } = .ok cml ∧
      finalScores { Record.empty with database := .num 5 } = .ok cdb ∧
      finalScores { Record.empty with softwareEngineering := .num 5 } = .ok cse ∧
      (cmm.fuzzy = c.fuzzy ∧ cmm.db = c.db ∧ cmm.valid = c.valid) ∧
      (cml.gaming = c.gaming ∧ cml.web = c.web ∧ cml.db = c.db ∧ cml.valid = c.valid) ∧
      (cdb.gaming = c.gaming ∧ cdb.web = c.web ∧ cdb.fuzzy = c.fuzzy ∧ cdb.valid = c.valid) ∧
      (cse.gaming = c.gaming ∧ cse.fuzzy = c.fuzzy ∧ cse.db = c.db) :=
  ⟨by decide, by decide, C12_subject_frame Record.empty (.num 5) (by decide) (by decide)⟩

/-! ### Evaluation at the example record and at the defaults -/

theorem example_eval (now : String) :
    finalScores exampleRecord = .ok
      ⟨((4 / 5.0) * 0.7 + 4 / 5.0) * (3.8 / 4.0) * 1.1 * 1.1,
       ((4 / 5.0) * 1.0 + 1 / 5.0) * (3.8 / 4.0) + 0.3,
       ((4 / 5.0) * 0.6 + 1 / 5.0) * (3.8 / 4.0) * 1.1,
       ((4 / 5.0) * 0.8 + 1 / 5.0) * (3.8 / 4.0) * 1.1,
       ((4 / 5.0) * 0.9 + 1 / 5.0) * (3.8 / 4.0) * 1.1⟩ ∧
    generate_recommendation exampleRecord now = .ok {
      firstRecommendedCourse := "Gaming"
      alternativeRecommendedCourse := "Web Development"
      firstConfidence := 1.563
      secondConfidence := 1.25
      Confidence_Expert := 1.563
      Confidence_Tree := 1.25
      probability_Gaming := 1.563
      probability_WebDevelopment := 1.25
      probability_FuzzyLogic := 0.711
      probability_DatabaseDesign := 0.878
      probability_SoftwareValidation_Verification := 0.961
      expertRecommendation := "Gaming"
      treeRecommendation := "Web Development"
      finalRecommendation := "Gaming"
      fisOutput := 2.5
      timestamp := now } := by
  have hi : exampleRecord.input = ⟨3.8, 4, 0, 0, 0, 0, 4, 1, 1, 1, 1, 2, 1⟩ := by
    norm_num [Record.input, exampleRecord, Record.empty, Field.getD, pyInt]
  have hf : fis_output ⟨3.8, 4, 0, 0, 0, 0, 4, 1, 1, 1, 1, 2, 1⟩ = 2.5 := by
    norm_num [fis_output]
  have hr : course_recommend ⟨3.8, 4, 0, 0, 0, 0, 4, 1, 1, 1, 1, 2, 1⟩ = 2 := by
    rw [course_recommend, hf]
    norm_num [pyRound]
  have ht : pyIndexE course_names
      (course_recommend ⟨3.8, 4, 0, 0, 0, 0, 4, 1, 1, 1, 1, 2, 1⟩ - 1) =
        .ok .WebDevelopment := tree_eq 2 hr rfl
  have hc := finalCourses_ok _ ht
  have hcv : floorStep (learningStyleStep (1 : ℤ) (difficultyStep (2 : ℤ)
      ((preBoostCourses ⟨3.8, 4, 0, 0, 0, 0, 4, 1, 1, 1, 1, 2, 1⟩).modify .WebDevelopment
        (fun s => s + 0.3)))) = ⟨1.56332, 1.25, 0.7106, 0.8778, 0.9614⟩ := by
    norm_num [floorStep, learningStyleStep, difficultyStep, preBoostCourses, cgpaBoost,
      cgpa_factor, interestScoring, interest_scores, subjectScoring, initCourses,
      Courses.forEach, Courses.modify]
  simp only [hcv] at hc
  have hs : sorted_courses ⟨1.56332, 1.25, 0.7106, 0.8778, 0.9614⟩ =
      [(.Gaming, 1.56332), (.WebDevelopment, 1.25), (.SoftwareValidation, 0.9614),
       (.DatabaseDesign, 0.8778), (.FuzzyLogic, 0.7106)] := by
    norm_num [sorted_courses, sortDesc, Courses.items, List.insertionSort, List.orderedInsert]
  constructor
  · rw [finalScores_valid (by decide), hi, hc]
    norm_num
  · rw [generate_valid now (by decide), hi, scoreInput_ok _ now ht hc hs, hf]
    norm_num [Courses.get, pyRound3, pyRound, Course.name]

/-- C13: for the input {cgpa: 3.8, programming: 4, gameDevelopment: 4,
difficulty: 2, learningStyle: 1} with every other field at its default, the
primary scorer's final scores are those of the literal weight table
(programming weights 0.7/1.0/0.6/0.8/0.9 on 4/5, interest/5 per course, factor
3.8/4, the +0.3 rule bonus on Web Development, the Moderate multiplier 1.1 on
Gaming and Validation and the Visual multiplier 1.1 on Gaming, Fuzzy Logic and
Database Design), and `firstRecommendedCourse` is Gaming or Web Development
(it is Gaming, with Web Development the alternative). -/
theorem C13_example_gaming_first (now : String) :
    finalScores exampleRecord = .ok
      ⟨((4 / 5.0) * 0.7 + 4 / 5.0) * (3.8 / 4.0) * 1.1 * 1.1,
       ((4 / 5.0) * 1.0 + 1 / 5.0) * (3.8 / 4.0) + 0.3,
       ((4 / 5.0) * 0.6 + 1 / 5.0) * (3.8 / 4.0) * 1.1,
       ((4 / 5.0) * 0.8 + 1 / 5.0) * (3.8 / 4.0) * 1.1,
       ((4 / 5.0) * 0.9 + 1 / 5.0) * (3.8 / 4.0) * 1.1⟩ ∧
    ∃ out, generate_recommendation exampleRecord now = .ok out ∧
      (out.firstRecommendedCourse = "Gaming" ∨
        out.firstRecommendedCourse = "Web Development") ∧
      out.firstRecommendedCourse ∈ courseNameList ∧
      out.firstRecommendedCourse = "Gaming" ∧
      out.alternativeRecommendedCourse = "Web Development" :=
  ⟨(example_eval now).1, _, (example_eval now).2, Or.inl rfl, Course.name_mem .Gaming, rfl, rfl⟩

theorem scoreInput_floor (i : Input) (now : String) :
    ∃ out, scoreInput i now = .ok out ∧
      0.1 ≤ out.probability_Gaming ∧ 0.1 ≤ out.probability_WebDevelopment ∧
      0.1 ≤ out.probability_FuzzyLogic ∧ 0.1 ≤ out.probability_DatabaseDesign ∧
      0.1 ≤ out.probability_SoftwareValidation_Verification := by
  obtain ⟨tree, ht⟩ := tree_ok i
  obtain ⟨first, second, rest, hs⟩ := sorted_courses_cons (floorStep
    (learningStyleStep i.learning_style (difficultyStep i.difficulty
      ((preBoostCourses i).modify tree (fun s => s + 0.3)))))
  exact ⟨_, scoreInput_ok i now ht (finalCourses_ok i ht) hs,
    pyRound3_ge_tenth (floorStep_get _ _), pyRound3_ge_tenth (floorStep_get _ _),
    pyRound3_ge_tenth (floorStep_get _ _), pyRound3_ge_tenth (floorStep_get _ _),
    pyRound3_ge_tenth (floorStep_get _ _)⟩

/-- C14: for the empty input record (every field missing), the primary scorer
does not fail and returns the same output record as for the explicit default
record (cgpa 3.0, the five subject strengths 0, the five interests 1,
difficulty 2, learningStyle 1); the record carries all five `probability_*`
fields and each is at least `0.1`. -/
theorem C14_empty_record_defaults (now : String) :
    ∃ out, generate_recommendation Record.empty now = .ok out ∧
      generate_recommendation defaultRecord now = .ok out ∧
      0.1 ≤ out.probability_Gaming ∧ 0.1 ≤ out.probability_WebDevelopment ∧
      0.1 ≤ out.probability_FuzzyLogic ∧ 0.1 ≤ out.probability_DatabaseDesign ∧
      0.1 ≤ out.probability_SoftwareValidation_Verification := by
  obtain ⟨out, ho, hp⟩ := scoreInput_floor Record.empty.input now
  have hi : defaultRecord.input = Record.empty.input := rfl
  exact ⟨out, (generate_valid now (by decide)).trans ho,
    (generate_valid now (by decide)).trans (hi ▸ ho), hp⟩

/-! ### The mid-performance default of the rule cascade -/

/-- C15: for every input record (fields missing or numbers) whose extracted
values reach the mid-performance default of the rule cascade (cgpa ≥ 3, not
both cgpa ≥ 4 and programming ≥ 4, not both artificialIntelligence ≥ 3 and
difficulty = 3, databaseSystem < 3, webDevelopment < 3), `fis_output` is 2.5
and the rounded class is 2, so the output's `fisOutput` is 2.5, its
`treeRecommendation` is Web Development, and the boost adds `0.3` to Web
Development and to no other course (in particular not to Fuzzy Logic). -/
theorem C15_mid_default_rounds_to_web (data : Record) (now : String) (c : Courses)
    (hv : data.valid = true) (h3 : 3 ≤ data.input.cgpa)
    (hhigh : ¬ (4 ≤ data.input.cgpa ∧ 4 ≤ data.input.programming))
    (hfuzzy : ¬ (3 ≤ data.input.ai_interest ∧ data.input.difficulty = 3))
    (hdb : data.input.db_interest < 3) (hweb : data.input.web_dev < 3) :
    fis_output data.input = 2.5 ∧ course_recommend data.input = 2 ∧
    fisBoost data.input c = .ok { c with web := c.web + 0.3 } ∧
    ∃ out, generate_recommendation data now = .ok out ∧ out.fisOutput = 2.5 ∧
      out.treeRecommendation = "Web Development" := by
  have hf : fis_output data.input = 2.5 := by
    unfold fis_output
    rw [if_neg (by simpa using hhigh), if_pos h3, if_neg (by simpa using hfuzzy),
      if_neg (not_le.mpr hdb), if_neg (not_le.mpr hweb)]
  have hr : course_recommend data.input = 2 := by
    rw [course_recommend, hf]
    norm_num [pyRound]
  have ht : pyIndexE course_names (course_recommend data.input - 1) = .ok .WebDevelopment :=
    tree_eq 2 hr rfl
  refine ⟨hf, hr, fisBoost_ok data.input c ht, ?_⟩
  obtain ⟨first, second, rest, hs⟩ := sorted_courses_cons (floorStep
    (learningStyleStep data.input.learning_style (difficultyStep data.input.difficulty
      ((preBoostCourses data.input).modify .WebDevelopment (fun s => s + 0.3)))))
  refine ⟨_, (generate_valid now hv).trans
    (scoreInput_ok data.input now ht (finalCourses_ok data.input ht) hs), ?_, rfl⟩
  show pyRound3 (fis_output data.input) = 2.5
  rw [hf]
  norm_num [pyRound3, pyRound]

/-- The mid-performance default at the empty record (cgpa 3, interests 1). -/
theorem C15_mid_default_rounds_to_web_witness :
    Record.empty.valid = true ∧ 3 ≤ Record.empty.input.cgpa ∧
    ¬ (4 ≤ Record.empty.input.cgpa ∧ 4 ≤ Record.empty.input.programming) ∧
    ¬ (3 ≤ Record.empty.input.ai_interest ∧ Record.empty.input.difficulty = 3) ∧
    Record.empty.input.db_interest < 3 ∧ Record.empty.input.web_dev < 3 ∧
    fis_output Record.empty.input = 2.5 ∧ course_recommend Record.empty.input = 2 ∧
    fisBoost Record.empty.input initCourses =
      .ok { initCourses with web := initCourses.web + 0.3 } ∧
    ∃ out, generate_recommendation Record.empty "2024-01-01 00:00:00" = .ok out ∧
      out.fisOutput = 2.5 ∧ out.treeRecommendation = "Web Development" := by
  have h3 : 3 ≤ Record.empty.input.cgpa := by
    norm_num [Record.input, Record.empty, Field.getD]
  have hhigh : ¬ (4 ≤ Record.empty.input.cgpa ∧ 4 ≤ Record.empty.input.programming) := by
    norm_num [Record.input, Record.empty, Field.getD]
  have hfuzzy : ¬ (3 ≤ Record.empty.input.ai_interest ∧ Record.empty.input.difficulty = 3) := by
    norm_num [Record.input, Record.empty, Field.getD, pyInt]
  have hdb : Record.empty.input.db_interest < 3 := by
    norm_num [Record.input, Record.empty, Field.getD, pyInt]
  have hweb : Record.empty.input.web_dev < 3 := by
    norm_num [Record.input, Record.empty, Field.getD, pyInt]
  exact ⟨by decide, h3, hhigh, hfuzzy, hdb, hweb,
    C15_mid_default_rounds_to_web Record.empty "2024-01-01 00:00:00" initCourses (by decide)
      h3 hhigh hfuzzy hdb hweb⟩

/-! ### Monotonicity in an interest -/

theorem pyInt_mono {q q' : ℚ} (h : q ≤ q') : pyInt q ≤ pyInt q' := by
  unfold pyInt
  split_ifs with h1 h2 h2
  · exact Int.floor_mono h
  · exact absurd (le_trans h1 h) h2
  · have a1 : (0 : ℤ) ≤ ⌊-q⌋ := Int.floor_nonneg.mpr (by linarith)
    have a2 : (0 : ℤ) ≤ ⌊q'⌋ := Int.floor_nonneg.mpr h2
    omega
  · have a1 : ⌊-q'⌋ ≤ ⌊-q⌋ := Int.floor_mono (by linarith)
    omega

/-- The rule class that selects a course: its position in `course_names`. -/
theorem tree_class {i : Input} {t : Course}
    (ht : pyIndexE course_names (course_recommend i - 1) = .ok t) (k : Course) :
    t = k ↔ course_recommend i = (course_names.indexOf k : ℤ) + 1 := by
  rcases course_recommend_mem i with h | h | h | h | h <;> rw [h] at ht ⊢ <;>
    injection ht with ht <;> subst ht <;> cases k <;> decide

theorem class_game_mono (i : Input) {g : ℤ} (h : i.game_dev ≤ g) :
    course_recommend i = 1 → course_recommend { i with game_dev := g } = 1 := by
  unfold course_recommend fis_output
  simp only []
  split_ifs <;> norm_num [pyRound] <;> omega

theorem class_web_mono (i : Input) {g : ℤ} (h : i.web_dev ≤ g) :
    course_recommend i = 2 → course_recommend { i with web_dev := g } = 2 := by
  unfold course_recommend fis_output
  simp only []
  split_ifs <;> norm_num [pyRound] <;> omega

theorem class_ai_mono (i : Input) {g : ℤ} (h : i.ai_interest ≤ g) :
    course_recommend i = 3 → course_recommend { i with ai_interest := g } = 3 := by
  unfold course_recommend fis_output
  simp only []
  split_ifs <;> norm_num [pyRound] <;> omega

theorem class_db_mono (i : Input) {g : ℤ} (h : i.db_interest ≤ g) :
    course_recommend i = 4 → course_recommend { i with db_interest := g } = 4 := by
  unfold course_recommend fis_output
  simp only []
  split_ifs <;> norm_num [pyRound] <;> omega

theorem class_validation_mono (i : Input) (g : ℤ) :
    course_recommend i = 5 → course_recommend { i with software_validation := g } = 5 := by
  unfold course_recommend fis_output
  simp only []
  split_ifs <;> norm_num [pyRound]

theorem cgpa_factor_nonneg {i : Input} (h : 0 ≤ i.cgpa) : 0 ≤ cgpa_factor i := by
  unfold cgpa_factor
  exact le_min (by norm_num; linarith) (by norm_num)

theorem final_interest_mono (i i' : Input) (k : Course) {c c' : Courses}
    (hd : i'.difficulty = i.difficulty) (hl : i'.learning_style = i.learning_style)
    (hclass : course_recommend i = (course_names.indexOf k : ℤ) + 1 →
      course_recommend i' = (course_names.indexOf k : ℤ) + 1)
    (hs : (subjectScoring i' initCourses).get k = (subjectScoring i initCourses).get k)
    (hi : interest_scores i k ≤ interest_scores i' k) (hcg : i'.cgpa = i.cgpa)
    (h0 : 0 ≤ i.cgpa) (hc : finalCourses i = .ok c) (hc' : finalCourses i' = .ok c') :
    c.get k ≤ c'.get k := by
  refine finalCourses_get_mono hd hl ?_ ?_ hc hc'
  · intro t t' ht ht' hk
    exact (tree_class ht' k).mpr (hclass ((tree_class ht k).mp hk))
  · rw [preBoost_get, preBoost_get, hs]
    have hfac : cgpa_factor i' = cgpa_factor i := by simp only [cgpa_factor, hcg]
    rw [hfac]
    exact mul_le_mul_of_nonneg_right (by linarith) (cgpa_factor_nonneg h0)

theorem interest_cast_mono {a b : ℤ} (h : a ≤ b) : (a : ℚ) / 5.0 ≤ (b : ℚ) / 5.0 := by
  have h' : (a : ℚ) ≤ (b : ℚ) := by exact_mod_cast h
  norm_num
  linarith

theorem setInterest_valid {data : Record} (k : Course) {f : Field}
    (hv : data.valid = true) (hf : f.isValid = true) :
    (data.setInterest k f).valid = true := by
  simp only [Record.valid, Bool.and_eq_true] at hv
  cases k <;> simp only [Record.setInterest, Record.valid, Bool.and_eq_true] <;> tauto

/-- C16: for every pair of input records (fields missing or numbers) with
cgpa ≥ 0 that are identical except that one interest field is at least as
large in the second, the primary scorer's final score of the course matching
that interest is at least as large for the second record as for the first. -/
theorem C16_interest_monotone (data : Record) (k : Course) (f : Field)
    (hv : data.valid = true) (hf : f.isValid = true) (hc : 0 ≤ data.cgpa.getD 3)
    (hle : (data.interest k).getD 1 ≤ f.getD 1) :
    ∃ c c', finalScores data = .ok c ∧ finalScores (data.setInterest k f) = .ok c' ∧
      c.get k ≤ c'.get k := by
  obtain ⟨c, hfc⟩ := finalCourses_exists data.input
  obtain ⟨c', hfc'⟩ := finalCourses_exists (data.setInterest k f).input
  refine ⟨c, c', (finalScores_valid hv).trans hfc,
    (finalScores_valid (setInterest_valid k hv hf)).trans hfc', ?_⟩
  have hm : pyInt ((data.interest k).getD 1) ≤ pyInt (f.getD 1) := pyInt_mono hle
  have h0 : 0 ≤ data.input.cgpa := hc
  cases k with
  | Gaming =>
    exact final_interest_mono data.input { data.input with game_dev := pyInt (f.getD 1) }
      .Gaming rfl rfl (class_game_mono data.input hm) (subject_gaming_congr _ rfl rfl)
      (interest_cast_mono hm) rfl h0 hfc hfc'
  | WebDevelopment =>
    exact final_interest_mono data.input { data.input with web_dev := pyInt (f.getD 1) }
      .WebDevelopment rfl rfl (class_web_mono data.input hm)
      (subject_web_congr _ rfl rfl rfl) (interest_cast_mono hm) rfl h0 hfc hfc'
  | FuzzyLogic =>
    exact final_interest_mono data.input { data.input with ai_interest := pyInt (f.getD 1) }
      .FuzzyLogic rfl rfl (class_ai_mono data.input hm) (subject_fuzzy_congr _ rfl rfl)
      (interest_cast_mono hm) rfl h0 hfc hfc'
  | DatabaseDesign =>
    exact final_interest_mono data.input { data.input with db_interest := pyInt (f.getD 1) }
      .DatabaseDesign rfl rfl (class_db_mono data.input hm) (subject_db_congr _ rfl rfl)
      (interest_cast_mono hm) rfl h0 hfc hfc'
  | SoftwareValidation =>
    exact final_interest_mono data.input
      { data.input with software_validation := pyInt (f.getD 1) }
      .SoftwareValidation rfl rfl (class_validation_mono data.input _)
      (subject_valid_congr _ rfl rfl) (interest_cast_mono hm) rfl h0 hfc hfc'

/-- The monotonicity at the empty record, raising artificialIntelligence from
its default 1 to 5. -/
theorem C16_interest_monotone_witness :
    Record.empty.valid = true ∧ (Field.num 5).isValid = true ∧
    0 ≤ Record.empty.cgpa.getD 3 ∧
    (Record.empty.interest .FuzzyLogic).getD 1 ≤ (Field.num 5).getD 1 ∧
    ∃ c c', finalScores Record.empty = .ok c ∧
      finalScores (Record.empty.setInterest .FuzzyLogic (.num 5)) = .ok c' ∧
      c.get .FuzzyLogic ≤ c'.get .FuzzyLogic := by
  have hc : 0 ≤ Record.empty.cgpa.getD 3 := by norm_num [Record.empty, Field.getD]
  have hle : (Record.empty.interest .FuzzyLogic).getD 1 ≤ (Field.num 5).getD 1 := by
    norm_num [Record.empty, Record.interest, Field.getD]
  exact ⟨by decide, by decide, hc, hle,
    C16_interest_monotone Record.empty .FuzzyLogic (.num 5) (by decide) (by decide) hc hle⟩

/-! ### The CGPA factor -/

theorem subjectScoring_nonneg (i : Input) (k : Course) :
    0 ≤ (subjectScoring i initCourses).get k := by
  have key : ∀ (x : ℤ) (w : ℚ), 0 ≤ w → 0 ≤ (if x > 0 then (x : ℚ) / 5.0 * w else 0) := by
    intro x w hw
    split_ifs with h
    · have hx : (0 : ℚ) < (x : ℚ) := by exact_mod_cast h
      have h5 : (0 : ℚ) ≤ (x : ℚ) / 5.0 := by norm_num; linarith
      exact mul_nonneg h5 hw
    · exact le_rfl
  have h := subjectScoring_get i initCourses
  cases k
  · show 0 ≤ (subjectScoring i initCourses).gaming
    rw [h.1]
    have a := key i.programming 0.7 (by norm_num)
    have b := key i.multimedia 1.0 (by norm_num)
    simp only [initCourses]
    linarith
  · show 0 ≤ (subjectScoring i initCourses).web
    rw [h.2.1]
    have a := key i.programming 1.0 (by norm_num)
    have b := key i.multimedia 0.8 (by norm_num)
    have c := key i.software_eng 0.8 (by norm_num)
    simp only [initCourses]
    linarith
  · show 0 ≤ (subjectScoring i initCourses).fuzzy
    rw [h.2.2.1]
    have a := key i.programming 0.6 (by norm_num)
    have b := key i.machine_learning 1.0 (by norm_num)
    simp only [initCourses]
    linarith
  · show 0 ≤ (subjectScoring i initCourses).db
    rw [h.2.2.2.1]
    have a := key i.programming 0.8 (by norm_num)
    have b := key i.database 1.0 (by norm_num)
    simp only [initCourses]
    linarith
  · show 0 ≤ (subjectScoring i initCourses).valid
    rw [h.2.2.2.2]
    have a := key i.programming 0.9 (by norm_num)
    have b := key i.software_eng 1.0 (by norm_num)
    simp only [initCourses]
    linarith

theorem cgpaBoost_get (i : Input) (c : Courses) (k : Course) :
    (cgpaBoost i c).get k = c.get k * cgpa_factor i := by
  cases k <;> rfl

theorem interestScoring_get (i : Input) (c : Courses) (k : Course) :
    (interestScoring i c).get k = c.get k + interest_scores i k := by
  cases k <;> rfl

/-- C17 (as stated, refuted): on the record with cgpa 2 and gameDevelopment
-5, the cgpa lies in `[0,4]` and the CGPA step raises the score of Gaming (from
-1 to -0.5). -/
theorem C17_negative_score_increases :
    0 ≤ negativeInterestRecord.cgpa.getD 3 ∧ negativeInterestRecord.cgpa.getD 3 ≤ 4 ∧
    negativeInterestRecord.valid = true ∧
    (interestScoring negativeInterestRecord.input
      (subjectScoring negativeInterestRecord.input initCourses)).get .Gaming = -1 ∧
    (cgpaBoost negativeInterestRecord.input (interestScoring negativeInterestRecord.input
      (subjectScoring negativeInterestRecord.input initCourses))).get .Gaming = -0.5 ∧
    (interestScoring negativeInterestRecord.input
      (subjectScoring negativeInterestRecord.input initCourses)).get .Gaming <
    (cgpaBoost negativeInterestRecord.input (interestScoring negativeInterestRecord.input
      (subjectScoring negativeInterestRecord.input initCourses))).get .Gaming := by
  have hi : negativeInterestRecord.input = ⟨2, 0, 0, 0, 0, 0, -5, 1, 1, 1, 1, 2, 1⟩ := by
    norm_num [Record.input, negativeInterestRecord, Record.empty, Field.getD, pyInt]
  have e1 : (interestScoring negativeInterestRecord.input
      (subjectScoring negativeInterestRecord.input initCourses)).get .Gaming = -1 := by
    rw [hi]
    norm_num [interestScoring, interest_scores, subjectScoring, initCourses,
      Courses.forEach, Courses.get]
  have e2 : (cgpaBoost negativeInterestRecord.input
      (interestScoring negativeInterestRecord.input
        (subjectScoring negativeInterestRecord.input initCourses))).get .Gaming = -0.5 := by
    rw [hi]
    norm_num [cgpaBoost, cgpa_factor, interestScoring, interest_scores, subjectScoring,
      initCourses, Courses.forEach, Courses.get]
  refine ⟨by norm_num [negativeInterestRecord, Field.getD],
    by norm_num [negativeInterestRecord, Field.getD], by decide, e1, e2, ?_⟩
  rw [e1, e2]
  norm_num

/-- C17 (amended): for every input record (fields missing or numbers) with
cgpa in `[0,4]`, the CGPA factor `min(cgpa/4.0, 1.25)` equals `cgpa/4.0` and is
at most 1, so the cap 1.25 is not reached and the CGPA step never increases a
course score that is non-negative before the step, in particular none of the
five scores when the five interests are non-negative; and for every record the
factor is the cap 1.25 exactly when cgpa ≥ 5. -/
theorem C17_cgpa_factor_in_range (data : Record) (hv : data.valid = true)
    (h0 : 0 ≤ data.cgpa.getD 3) (h4 : data.cgpa.getD 3 ≤ 4) :
    (∃ i, extract data = .ok i ∧
      cgpa_factor i = data.cgpa.getD 3 / 4.0 ∧ cgpa_factor i ≤ 1 ∧ cgpa_factor i < 1.25 ∧
      (∀ (c : Courses) (k : Course), 0 ≤ c.get k → (cgpaBoost i c).get k ≤ c.get k) ∧
      ((0 ≤ i.game_dev ∧ 0 ≤ i.web_dev ∧ 0 ≤ i.ai_interest ∧ 0 ≤ i.db_interest ∧
          0 ≤ i.software_validation) →
        ∀ k, (cgpaBoost i (interestScoring i (subjectScoring i initCourses))).get k ≤
          (interestScoring i (subjectScoring i initCourses)).get k)) ∧
    (∀ j : Input, cgpa_factor j = 1.25 ↔ 5 ≤ j.cgpa) := by
  have hfac : cgpa_factor data.input = data.cgpa.getD 3 / 4.0 := by
    unfold cgpa_factor
    exact min_eq_left (by show data.cgpa.getD 3 / 4.0 ≤ 1.25; norm_num; linarith)
  have hle1 : cgpa_factor data.input ≤ 1 := by
    rw [hfac]; norm_num; linarith
  have hge0 : 0 ≤ cgpa_factor data.input := by
    rw [hfac]; norm_num; linarith
  have hstep : ∀ (c : Courses) (k : Course), 0 ≤ c.get k →
      (cgpaBoost data.input c).get k ≤ c.get k := by
    intro c k hk
    rw [cgpaBoost_get]
    exact mul_le_of_le_one_right hk hle1
  refine ⟨⟨data.input, extract_valid hv, hfac, hle1, by linarith [hle1, (by norm_num : (1 : ℚ) < 1.25)],
    hstep, ?_⟩, ?_⟩
  · rintro ⟨g1, g2, g3, g4, g5⟩ k
    apply hstep
    rw [interestScoring_get]
    have hs := subjectScoring_nonneg data.input k
    have hi : 0 ≤ interest_scores data.input k := by
      cases k <;> simp only [interest_scores] <;>
        first
        | (have h := interest_cast_mono g1; simpa using h)
        | (have h := interest_cast_mono g2; simpa using h)
        | (have h := interest_cast_mono g3; simpa using h)
        | (have h := interest_cast_mono g4; simpa using h)
        | (have h := interest_cast_mono g5; simpa using h)
    linarith
  · intro j
    unfold cgpa_factor
    constructor
    · intro h
      have h2 : (1.25 : ℚ) ≤ j.cgpa / 4.0 := by
        rw [← h]; exact min_le_left _ _
      norm_num at h2
      linarith
    · intro h
      exact min_eq_right (by norm_num; linarith)

/-- The factor at cgpa 3 (the empty record's default). -/
theorem C17_cgpa_factor_in_range_witness :
    Record.empty.valid = true ∧ 0 ≤ Record.empty.cgpa.getD 3 ∧ Record.empty.cgpa.getD 3 ≤ 4 ∧
    (∃ i, extract Record.empty = .ok i ∧
      cgpa_factor i = Record.empty.cgpa.getD 3 / 4.0 ∧ cgpa_factor i ≤ 1 ∧
      cgpa_factor i < 1.25 ∧
      (∀ (c : Courses) (k : Course), 0 ≤ c.get k → (cgpaBoost i c).get k ≤ c.get k) ∧
      ((0 ≤ i.game_dev ∧ 0 ≤ i.web_dev ∧ 0 ≤ i.ai_interest ∧ 0 ≤ i.db_interest ∧
          0 ≤ i.software_validation) →
        ∀ k, (cgpaBoost i (interestScoring i (subjectScoring i initCourses))).get k ≤
          (interestScoring i (subjectScoring i initCourses)).get k)) ∧
    (∀ j : Input, cgpa_factor j = 1.25 ↔ 5 ≤ j.cgpa) := by
  have h0 : 0 ≤ Record.empty.cgpa.getD 3 := by norm_num [Record.empty, Field.getD]
  have h4 : Record.empty.cgpa.getD 3 ≤ 4 := by norm_num [Record.empty, Field.getD]
  exact ⟨by decide, h0, h4, C17_cgpa_factor_in_range Record.empty (by decide) h0 h4⟩

/-! ### Which courses the rule bonus can reach -/

theorem class_one_or_five_high (i : Input) :
    course_recommend i = 1 ∨ course_recommend i = 5 → 4 ≤ i.cgpa ∧ 4 ≤ i.programming := by
  unfold course_recommend fis_output
  split_ifs with h <;> norm_num [pyRound]
  all_goals exact h

/-- C18: for every input record (fields missing or numbers), if the primary
scorer's `treeRecommendation` is Gaming or Software Validation & Verification
then cgpa ≥ 4 and programming ≥ 4; equivalently, outside the high-performance
branch the `treeRecommendation` (the course that receives the rule bonus) is
Web Development, Fuzzy Logic or Database Design. -/
theorem C18_gaming_validation_only_high (data : Record) (now : String)
    (hv : data.valid = true) :
    ∃ out, generate_recommendation data now = .ok out ∧
      ((out.treeRecommendation = "Gaming" ∨
          out.treeRecommendation = "Software Validation & Verification") →
        4 ≤ data.cgpa.getD 3 ∧ 4 ≤ data.programming.getD 0) ∧
      (¬ (4 ≤ data.cgpa.getD 3 ∧ 4 ≤ data.programming.getD 0) →
        out.treeRecommendation = "Web Development" ∨
        out.treeRecommendation = "Fuzzy Logic" ∨
        out.treeRecommendation = "Database Design") := by
  obtain ⟨tree, ht⟩ := tree_ok data.input
  obtain ⟨out, ho, hot⟩ := scoreInput_tree data.input now tree ht
  have hraw : 4 ≤ data.input.cgpa ∧ 4 ≤ data.input.programming →
      4 ≤ data.cgpa.getD 3 ∧ 4 ≤ data.programming.getD 0 := by
    rintro ⟨h1, h2⟩
    exact ⟨h1, by simpa using (le_pyInt (n := 4) (by decide) (data.programming.getD 0)).mp h2⟩
  have hcourse : tree = .Gaming ∨ tree = .SoftwareValidation →
      4 ≤ data.cgpa.getD 3 ∧ 4 ≤ data.programming.getD 0 := by
    intro h
    apply hraw
    apply class_one_or_five_high
    rcases h with h | h
    · exact Or.inl (by simpa [course_names] using (tree_class ht .Gaming).mp h)
    · exact Or.inr (by simpa [course_names] using (tree_class ht .SoftwareValidation).mp h)
  refine ⟨out, (generate_valid now hv).trans ho, ?_, ?_⟩
  · rw [hot]
    rintro (h | h)
    · exact hcourse (Or.inl (Course.name_injective h))
    · exact hcourse (Or.inr (Course.name_injective h))
  · intro hn
    rw [hot]
    cases tree with
    | Gaming => exact absurd (hcourse (Or.inl rfl)) hn
    | WebDevelopment => exact Or.inl rfl
    | FuzzyLogic => exact Or.inr (Or.inl rfl)
    | DatabaseDesign => exact Or.inr (Or.inr rfl)
    | SoftwareValidation => exact absurd (hcourse (Or.inr rfl)) hn

/-- The property at the high-performance record (cgpa 4, programming 5, default
interests), whose rule classification is Software Validation & Verification. -/
theorem C18_gaming_validation_only_high_witness :
    highPerformanceRecord.valid = true ∧
    ∃ out, generate_recommendation highPerformanceRecord "2024-01-01 00:00:00" = .ok out ∧
      ((out.treeRecommendation = "Gaming" ∨
          out.treeRecommendation = "Software Validation & Verification") →
        4 ≤ highPerformanceRecord.cgpa.getD 3 ∧ 4 ≤ highPerformanceRecord.programming.getD 0) ∧
      (¬ (4 ≤ highPerformanceRecord.cgpa.getD 3 ∧
            4 ≤ highPerformanceRecord.programming.getD 0) →
        out.treeRecommendation = "Web Development" ∨
        out.treeRecommendation = "Fuzzy Logic" ∨
        out.treeRecommendation = "Database Design") :=
  ⟨by decide, C18_gaming_validation_only_high highPerformanceRecord "2024-01-01 00:00:00"
    (by decide)⟩

/-! ### Double rounding -/

theorem pyRound_intCast (n : ℤ) : pyRound (n : ℚ) = n := by
  simp [pyRound]

theorem pyRound_neg (t : ℚ) : pyRound (-t) = -pyRound t := by
  have hf1 := Int.floor_le t
  have hf2 := Int.lt_floor_add_one t
  rcases hf1.eq_or_lt with heq | hlt
  · rw [← heq, ← Int.cast_neg, pyRound_intCast, pyRound_intCast]
  · have hfl : ⌊-t⌋ = -⌊t⌋ - 1 := by
      rw [Int.floor_eq_iff]
      push_cast
      constructor <;> linarith
    unfold pyRound
    rw [hfl]
    push_cast
    split_ifs <;> first | omega | (exfalso; linarith)

theorem fl_zero : fl 0 = 0 := by
  simp [fl]

theorem fl_neg (x : ℚ) : fl (-x) = -fl x := by
  by_cases hx : x = 0
  · simp [hx, fl_zero]
  · have hx' : -x ≠ 0 := neg_ne_zero.mpr hx
    unfold fl roundHalfEven
    rw [if_neg hx, if_neg hx', abs_neg, neg_div, pyRound_neg]
    push_cast
    ring

theorem binade_bounds {x : ℚ} (hx : 0 < x) :
    (2 : ℚ) ^ Int.log 2 x ≤ x ∧ x < (2 : ℚ) ^ (Int.log 2 x + 1) := by
  have h1 := Int.zpow_log_le_self (b := 2) (by norm_num) hx
  have h2 := Int.lt_zpow_succ_log_self (b := 2) (by norm_num) x
  exact ⟨by exact_mod_cast h1, by exact_mod_cast h2⟩

theorem fl_pos_eq {x : ℚ} (hx : 0 < x) :
    fl x = (pyRound (x / (2 : ℚ) ^ (Int.log 2 x - 52)) : ℚ) * (2 : ℚ) ^ (Int.log 2 x - 52) := by
  unfold fl roundHalfEven
  rw [if_neg hx.ne', abs_of_pos hx]

theorem fl_binade {x : ℚ} (hx : 0 < x) :
    (2 : ℚ) ^ Int.log 2 x ≤ fl x ∧ fl x ≤ (2 : ℚ) ^ (Int.log 2 x + 1) := by
  obtain ⟨h1, h2⟩ := binade_bounds hx
  have hu : (0 : ℚ) < (2 : ℚ) ^ (Int.log 2 x - 52) := zpow_pos (by norm_num) _
  have e1 : (2 : ℚ) ^ Int.log 2 x = ((2 ^ 52 : ℤ) : ℚ) * (2 : ℚ) ^ (Int.log 2 x - 52) := by
    rw [zpow_sub₀ (by norm_num : (2 : ℚ) ≠ 0)]
    push_cast
    field_simp
    ring
  have e2 : (2 : ℚ) ^ (Int.log 2 x + 1) =
      ((2 ^ 53 : ℤ) : ℚ) * (2 : ℚ) ^ (Int.log 2 x - 52) := by
    rw [zpow_sub₀ (by norm_num : (2 : ℚ) ≠ 0), zpow_add₀ (by norm_num : (2 : ℚ) ≠ 0)]
    push_cast
    field_simp
    ring
  have t1 : ((2 ^ 52 : ℤ) : ℚ) ≤ x / (2 : ℚ) ^ (Int.log 2 x - 52) := by
    rw [le_div_iff₀ hu, ← e1]; exact h1
  have t2 : x / (2 : ℚ) ^ (Int.log 2 x - 52) ≤ ((2 ^ 53 : ℤ) : ℚ) := by
    rw [div_le_iff₀ hu, ← e2]; exact h2.le
  have r1 : (2 ^ 52 : ℤ) ≤ pyRound (x / (2 : ℚ) ^ (Int.log 2 x - 52)) := by
    have := pyRound_mono t1
    rwa [pyRound_intCast] at this
  have r2 : pyRound (x / (2 : ℚ) ^ (Int.log 2 x - 52)) ≤ (2 ^ 53 : ℤ) := by
    have := pyRound_mono t2
    rwa [pyRound_intCast] at this
  rw [fl_pos_eq hx, e1, e2]
  constructor
  · exact mul_le_mul_of_nonneg_right (by exact_mod_cast r1) hu.le
  · exact mul_le_mul_of_nonneg_right (by exact_mod_cast r2) hu.le

theorem fl_pos {x : ℚ} (hx : 0 < x) : 0 < fl x :=
  lt_of_lt_of_le (zpow_pos (by norm_num) _) (fl_binade hx).1

theorem fl_mono_pos {x y : ℚ} (hx : 0 < x) (h : x ≤ y) : fl x ≤ fl y := by
  have hy : 0 < y := lt_of_lt_of_le hx h
  have hlog : Int.log 2 x ≤ Int.log 2 y := Int.log_mono_right hx h
  rcases hlog.eq_or_lt with he | hlt
  · rw [fl_pos_eq hx, fl_pos_eq hy, he]
    have hu : (0 : ℚ) < (2 : ℚ) ^ (Int.log 2 y - 52) := zpow_pos (by norm_num) _
    have hr := pyRound_mono (div_le_div_of_nonneg_right h hu.le)
    exact mul_le_mul_of_nonneg_right (by exact_mod_cast hr) hu.le
  · have h1 := (fl_binade hx).2
    have h2 := (fl_binade hy).1
    have h3 : (2 : ℚ) ^ (Int.log 2 x + 1) ≤ (2 : ℚ) ^ Int.log 2 y :=
      zpow_le_zpow_right₀ (by norm_num) (by omega)
    linarith

theorem fl_nonpos {x : ℚ} (hx : x ≤ 0) : fl x ≤ 0 := by
  rcases hx.eq_or_lt with h | h
  · rw [h, fl_zero]
  · have := fl_pos (neg_pos.mpr h)
    rw [fl_neg] at this
    linarith

theorem fl_nonneg {x : ℚ} (hx : 0 ≤ x) : 0 ≤ fl x := by
  rcases hx.eq_or_lt with h | h
  · rw [← h, fl_zero]
  · exact (fl_pos h).le

theorem fl_mono {x y : ℚ} (h : x ≤ y) : fl x ≤ fl y := by
  rcases lt_trichotomy y 0 with hy | hy | hy
  · have hx : x < 0 := lt_of_le_of_lt h hy
    have := fl_mono_pos (neg_pos.mpr hy) (neg_le_neg h)
    rw [fl_neg, fl_neg] at this
    linarith
  · rw [hy, fl_zero]
    exact fl_nonpos (hy ▸ h)
  · rcases le_or_lt x 0 with hx | hx
    · exact le_trans (fl_nonpos hx) (fl_pos hy).le
    · exact fl_mono_pos hx h


theorem log_eq_of_bounds {x : ℚ} {e : ℤ} (h1 : (2 : ℚ) ^ e ≤ x) (h2 : x < (2 : ℚ) ^ (e + 1)) :
    Int.log 2 x = e := by
  have hx : 0 < x := lt_of_lt_of_le (zpow_pos (by norm_num) e) h1
  have a : e ≤ Int.log 2 x :=
    (Int.zpow_le_iff_le_log (by norm_num) hx).mp (by exact_mod_cast h1)
  have b : Int.log 2 x < e + 1 :=
    (Int.lt_zpow_iff_log_lt (by norm_num) hx).mp (by exact_mod_cast h2)
  omega

theorem fl_eval_pos {x v : ℚ} (e m : ℤ) (h1 : (2 : ℚ) ^ e ≤ x) (h2 : x < (2 : ℚ) ^ (e + 1))
    (hm : pyRound (x / (2 : ℚ) ^ (e - 52)) = m) (hv : (m : ℚ) * (2 : ℚ) ^ (e - 52) = v) :
    fl x = v := by
  have hx : 0 < x := lt_of_lt_of_le (zpow_pos (by norm_num) e) h1
  rw [fl_pos_eq hx, log_eq_of_bounds h1 h2, hm, hv]

/-! ### The roundings met at the tie record -/

theorem fl_tie_0 : fl (1 / 10) = 3602879701896397 / 36028797018963968 :=
  fl_eval_pos (-4) 7205759403792794 (by norm_num) (by norm_num) (by norm_num [pyRound]) (by norm_num)

theorem fl_tie_1 : fl (1 / 2) = 1 / 2 :=
  fl_eval_pos (-1) 4503599627370496 (by norm_num) (by norm_num) (by norm_num [pyRound]) (by norm_num)

theorem fl_tie_2 : fl (2) = 2 :=
  fl_eval_pos (1) 4503599627370496 (by norm_num) (by norm_num) (by norm_num [pyRound]) (by norm_num)

theorem fl_tie_3 : fl (3) = 3 :=
  fl_eval_pos (1) 6755399441055744 (by norm_num) (by norm_num) (by norm_num [pyRound]) (by norm_num)

theorem fl_tie_4 : fl (3602879701896397 / 18014398509481984) = 3602879701896397 / 18014398509481984 :=
  fl_eval_pos (-3) 7205759403792794 (by norm_num) (by norm_num) (by norm_num [pyRound]) (by norm_num)

theorem fl_tie_5 : fl (2 / 5) = 3602879701896397 / 9007199254740992 :=
  fl_eval_pos (-2) 7205759403792794 (by norm_num) (by norm_num) (by norm_num [pyRound]) (by norm_num)

theorem fl_tie_6 : fl (3602879701896397 / 4503599627370496) = 3602879701896397 / 4503599627370496 :=
  fl_eval_pos (-1) 7205759403792794 (by norm_num) (by norm_num) (by norm_num [pyRound]) (by norm_num)

theorem fl_tie_7 : fl (18014398509481985 / 18014398509481984) = 1 :=
  fl_eval_pos (0) 4503599627370496 (by norm_num) (by norm_num) (by norm_num [pyRound]) (by norm_num)

theorem fl_tie_8 : fl (1 / 5) = 3602879701896397 / 18014398509481984 :=
  fl_eval_pos (-3) 7205759403792794 (by norm_num) (by norm_num) (by norm_num [pyRound]) (by norm_num)

theorem fl_tie_9 : fl (3602879701896397 / 9007199254740992) = 3602879701896397 / 9007199254740992 :=
  fl_eval_pos (-2) 7205759403792794 (by norm_num) (by norm_num) (by norm_num [pyRound]) (by norm_num)

theorem fl_tie_10 : fl (10808639105689191 / 18014398509481984) = 1351079888211149 / 2251799813685248 :=
  fl_eval_pos (-1) 5404319552844596 (by norm_num) (by norm_num) (by norm_num [pyRound]) (by norm_num)

theorem fl_tie_11 : fl (6 / 5) = 5404319552844595 / 4503599627370496 :=
  fl_eval_pos (0) 5404319552844595 (by norm_num) (by norm_num) (by norm_num [pyRound]) (by norm_num)

theorem fl_tie_12 : fl (11 / 10) = 2476979795053773 / 2251799813685248 :=
  fl_eval_pos (0) 4953959590107546 (by norm_num) (by norm_num) (by norm_num [pyRound]) (by norm_num)

theorem fl_tie_13 : fl (7301667457314602163268943389655 / 10141204801825835211973625643008) = 6485183463413515 / 9007199254740992 :=
  fl_eval_pos (-1) 6485183463413515 (by norm_num) (by norm_num) (by norm_num [pyRound]) (by norm_num)

theorem fl_tie_14 : fl (2476979795053773 / 2251799813685248) = 2476979795053773 / 2251799813685248 :=
  fl_eval_pos (0) 4953959590107546 (by norm_num) (by norm_num) (by norm_num [pyRound]) (by norm_num)

theorem fl_tie_15 : fl (3346597584602526385563233115177 / 5070602400912917605986812821504) = 185773484629033 / 281474976710656 :=
  fl_eval_pos (-1) 5944751508129056 (by norm_num) (by norm_num) (by norm_num [pyRound]) (by norm_num)

theorem fl_tie_16 : fl (16225927682921333636998024606515 / 162259276829213363391578010288128) = 900719925474099 / 9007199254740992 :=
  fl_eval_pos (-4) 7205759403792792 (by norm_num) (by norm_num) (by norm_num [pyRound]) (by norm_num)

theorem fl_tie_17 : fl (9907919180215091 / 9007199254740992) = 2476979795053773 / 2251799813685248 :=
  fl_eval_pos (0) 4953959590107546 (by norm_num) (by norm_num) (by norm_num [pyRound]) (by norm_num)

theorem fl_tie_18 : fl (6485183463413515 / 9007199254740992) = 6485183463413515 / 9007199254740992 :=
  fl_eval_pos (-1) 6485183463413515 (by norm_num) (by norm_num) (by norm_num [pyRound]) (by norm_num)

theorem fl_tie_19 : fl (1351079888211149 / 2251799813685248) = 1351079888211149 / 2251799813685248 :=
  fl_eval_pos (-1) 5404319552844596 (by norm_num) (by norm_num) (by norm_num [pyRound]) (by norm_num)

theorem fl_tie_20 : fl (185773484629033 / 281474976710656) = 185773484629033 / 281474976710656 :=
  fl_eval_pos (-1) 5944751508129056 (by norm_num) (by norm_num) (by norm_num [pyRound]) (by norm_num)

/-! ### The fallback scorer in doubles -/

theorem tie_parse :
    fallbackParse64 tieRecord = ⟨1 / 2, 0, 2, 2, 1, 1, 1, 3, 3⟩ := by
  norm_num [fallbackParse64, tieRecord, Record.empty, jsParseFloat64, jsParseInt64, jsOr,
    pyInt, fl_tie_1, fl_tie_2, fl_tie_3]

theorem tie_jitterFree :
    jitterFreeScores64 tieRecord =
      ⟨1, 2476979795053773 / 2251799813685248, 6485183463413515 / 9007199254740992,
        1351079888211149 / 2251799813685248, 185773484629033 / 281474976710656⟩ := by
  rw [jitterFreeScores64, tie_parse]
  norm_num [jitterFree64, fallbackLearningStyle64, fallbackDifficulty64, initScores64,
    baseScore64, fl_zero, fl_tie_0, fl_tie_4, fl_tie_5, fl_tie_6, fl_tie_7, fl_tie_8,
    fl_tie_9, fl_tie_10, fl_tie_11, fl_tie_12, fl_tie_13, fl_tie_14, fl_tie_15]

theorem tie_jitter (k : Course) :
    0 ≤ jitter64 (tieDraws k) ∧ jitter64 (tieDraws k) < 0.1 := by
  cases k <;>
    norm_num [jitter64, tieDraws, fl_zero, fl_tie_0, fl_tie_16]

theorem tie_scores :
    fallbackScores64 tieRecord tieDraws =
      ⟨2476979795053773 / 2251799813685248, 2476979795053773 / 2251799813685248,
        6485183463413515 / 9007199254740992, 1351079888211149 / 2251799813685248,
        185773484629033 / 281474976710656⟩ := by
  rw [fallbackScores64, tie_jitterFree]
  norm_num [addJitter64, Courses.forEach, jitter64, tieDraws, fl_zero, fl_tie_0, fl_tie_16,
    fl_tie_17, fl_tie_14, fl_tie_18, fl_tie_19, fl_tie_20]

theorem tie_sorted :
    sortedEntries64 tieRecord tieDraws =
      [(.Gaming, 2476979795053773 / 2251799813685248),
       (.WebDevelopment, 2476979795053773 / 2251799813685248),
       (.FuzzyLogic, 6485183463413515 / 9007199254740992),
       (.SoftwareValidation, 185773484629033 / 281474976710656),
       (.DatabaseDesign, 1351079888211149 / 2251799813685248)] := by
  rw [sortedEntries64, tie_scores]
  norm_num [sortDesc, Courses.items, List.insertionSort, List.orderedInsert]

theorem tie_gap :
    (jitterFreeScores64 tieRecord).get .Gaming + 0.1 <
      (jitterFreeScores64 tieRecord).get .WebDevelopment := by
  rw [tie_jitterFree]
  norm_num [Courses.get]

theorem addJitter64_get (rnd : Course → ℚ) (s : Courses) (k : Course) :
    (addJitter64 rnd s).get k = fl (s.get k + jitter64 (rnd k)) := by
  cases k <;> rfl

theorem course_mem (k : Course) : k ∈ course_names := by
  cases k <;> decide

theorem ranked_head_ne (c : Courses) {a b : Course}
    (h : rankedBefore (sortDesc c.items) a b) (hab : a ≠ b) :
    ((sortDesc c.items).map Prod.fst).head? ≠ some b := by
  have hn := sortDesc_keys_nodup c
  unfold rankedBefore at h
  match hs : (sortDesc c.items).map Prod.fst with
  | [] => simp
  | x :: rest =>
    rw [hs] at h hn
    simp only [List.head?_cons, ne_eq, Option.some.injEq]
    intro hx
    subst hx
    have hnot : x ∉ rest := (List.nodup_cons.mp hn).1
    cases h with
    | cons _ h' => exact hnot (h'.subset (by simp))
    | cons₂ _ h' => exact hab rfl

theorem rounded_jitter_order (c : Courses) (rnd : Course → ℚ) (a b : Course)
    (hj : ∀ k, 0 ≤ jitter64 (rnd k) ∧ jitter64 (rnd k) < 0.1)
    (hgap : c.get b + 0.1 < c.get a) :
    (addJitter64 rnd c).get b ≤ (addJitter64 rnd c).get a ∧
    (rankedBefore (sortDesc (addJitter64 rnd c).items) a b ∨
      ((addJitter64 rnd c).get a = (addJitter64 rnd c).get b ∧
        List.Sublist [b, a] course_names)) := by
  have hle : (addJitter64 rnd c).get b ≤ (addJitter64 rnd c).get a := by
    rw [addJitter64_get, addJitter64_get]
    apply fl_mono
    have h1 := (hj a).1
    have h2 := (hj b).2
    linarith
  refine ⟨hle, ?_⟩
  have hab : a ≠ b := by
    intro he
    rw [he] at hgap
    norm_num at hgap
  rcases hle.lt_or_eq with hlt | heq
  · exact Or.inl (sortDesc_ranks_greater _ hlt)
  · rcases pair_sublist_or (course_mem a) (course_mem b) hab with hs | hs
    · exact Or.inl (sortDesc_stable _ hs heq.symm)
    · exact Or.inr ⟨heq.symm, hs⟩

/-- C10 (as stated, refuted): on the record with cgpa 0.5, gameDevelopment 2,
webDevelopment 2, difficulty 3 and learningStyle 3, with the draw `1 - 2^-52`
for Gaming and `0` for the other courses, every jitter lies in `[0, 0.1)` and
the jitter-free score of Web Development exceeds that of Gaming by more than
`0.1`, yet the two final scores are the same double and the stable sort puts
Gaming first: Web Development is not ranked before Gaming. -/
theorem C10_rounding_tie_inverts :
    (∀ k, 0 ≤ tieDraws k ∧ tieDraws k < 1) ∧
    (∀ k, 0 ≤ jitter64 (tieDraws k) ∧ jitter64 (tieDraws k) < 0.1) ∧
    (jitterFreeScores64 tieRecord).get .Gaming + 0.1 <
      (jitterFreeScores64 tieRecord).get .WebDevelopment ∧
    (fallbackScores64 tieRecord tieDraws).get .Gaming =
      (fallbackScores64 tieRecord tieDraws).get .WebDevelopment ∧
    ¬ rankedBefore (sortedEntries64 tieRecord tieDraws) .WebDevelopment .Gaming ∧
    (sortedEntries64 tieRecord tieDraws).map Prod.fst =
      [.Gaming, .WebDevelopment, .FuzzyLogic, .SoftwareValidation, .DatabaseDesign] := by
  refine ⟨fun k => by cases k <;> norm_num [tieDraws], tie_jitter, tie_gap, ?_, ?_, ?_⟩
  · rw [tie_scores]
    rfl
  · rw [tie_sorted]
    unfold rankedBefore
    decide
  · rw [tie_sorted]
    rfl

/-- C10 (amended): for every input record and every jitter vector with each
component in `[0, 0.1)`, if the fallback scorer's jitter-free score of course
`a` exceeds that of course `b` by more than `0.1`, then the final score of `a`
is at least that of `b`, and `a` stands before `b` in the sorted list (so that
`b` is not the first course) unless rounding makes the two final scores equal
and `b` comes before `a` in the course table. -/
theorem C10_rounded_jitter_order (inputData : Record) (rnd : Course → ℚ) (a b : Course)
    (hj : ∀ k, 0 ≤ jitter64 (rnd k) ∧ jitter64 (rnd k) < 0.1)
    (hgap : (jitterFreeScores64 inputData).get b + 0.1 <
      (jitterFreeScores64 inputData).get a) :
    (fallbackScores64 inputData rnd).get b ≤ (fallbackScores64 inputData rnd).get a ∧
    (rankedBefore (sortedEntries64 inputData rnd) a b ∨
      ((fallbackScores64 inputData rnd).get a = (fallbackScores64 inputData rnd).get b ∧
        List.Sublist [b, a] course_names)) ∧
    (rankedBefore (sortedEntries64 inputData rnd) a b →
      ((sortedEntries64 inputData rnd).map Prod.fst).head? ≠ some b) := by
  obtain ⟨h1, h2⟩ := rounded_jitter_order (jitterFreeScores64 inputData) rnd a b hj hgap
  refine ⟨h1, h2, fun hr => ?_⟩
  have hab : a ≠ b := by
    intro he
    rw [he] at hgap
    norm_num at hgap
  exact ranked_head_ne _ hr hab

/-- The amended property at the tie record, for Web Development against
Gaming: the final scores are equal and Gaming comes first in the course
table. -/
theorem C10_rounded_jitter_order_witness :
    (∀ k, 0 ≤ jitter64 (tieDraws k) ∧ jitter64 (tieDraws k) < 0.1) ∧
    (jitterFreeScores64 tieRecord).get .Gaming + 0.1 <
      (jitterFreeScores64 tieRecord).get .WebDevelopment ∧
    (fallbackScores64 tieRecord tieDraws).get .Gaming ≤
      (fallbackScores64 tieRecord tieDraws).get .WebDevelopment ∧
    (rankedBefore (sortedEntries64 tieRecord tieDraws) .WebDevelopment .Gaming ∨
      ((fallbackScores64 tieRecord tieDraws).get .WebDevelopment =
          (fallbackScores64 tieRecord tieDraws).get .Gaming ∧
        List.Sublist [.Gaming, .WebDevelopment] course_names)) ∧
    (rankedBefore (sortedEntries64 tieRecord tieDraws) .WebDevelopment .Gaming →
      ((sortedEntries64 tieRecord tieDraws).map Prod.fst).head? ≠ some .Gaming) :=
  ⟨tie_jitter, tie_gap,
    C10_rounded_jitter_order tieRecord tieDraws .WebDevelopment .Gaming tie_jitter tie_gap⟩

end CourseRec
